import Mathlib

/-!
# plugdata: a shallow embedding of the GUI glue code

The definitions follow the C++ sources under `Source/`; floating point values
are exact rationals, machine integers are `Int`/`Nat`, and every call into
JUCE or into the Pd engine that the sources only use (never define) is either
an explicit input or a log of the arguments passed.

Part I holds the definitions, Part II the lemmas and theorems.
-/

set_option linter.unusedVariables false
set_option linter.unusedSectionVars false

namespace Plugdata

/-! ## Part I: definitions -/

/-! ### `GUIObjects.cpp`: `GUIComponent::createGui` -/

/-- The values of `pd::Type` that `GUIComponent::createGui` compares against.
The enumeration is declared in `PdGui.h`; `Undefined` stands for every value
that none of the comparisons in `createGui` names. -/
inductive PdType where
  | Bang | Toggle | HorizontalSlider | VerticalSlider | HorizontalRadio
  | VerticalRadio | Message | Number | AtomList | Array | GraphOnParent
  | Subpatch | VuMeter | Panel | Comment | AtomNumber | AtomSymbol
  | Mousepad | Mouse | Keyboard | Undefined
  deriving DecidableEq, Repr

/-- What `parent->pdObject` points to: a `pd::Gui` of some type, or a plain
`pd::Object` for which the `dynamic_cast<pd::Gui*>` fails. -/
inductive PdObject where
  | gui (t : PdType)
  | object
  deriving DecidableEq, Repr

/-- The component classes that `createGui` instantiates. -/
inductive ComponentClass where
  | BangComponent | ToggleComponent | SliderComponent | RadioComponent
  | MessageComponent | NumboxComponent | ListComponent | ArrayComponent
  | GraphOnParent | Subpatch | VUMeter | PanelComponent | CommentComponent
  | MousePad | MouseComponent | KeyboardComponent
  deriving DecidableEq, Repr

/-- The object a `new X(...)` expression of `createGui` builds: its class, the
leading `bool` constructor argument of the slider and radio classes, the gui
type it was built from and the `newObject` flag. -/
structure CreatedGui where
  cls : ComponentClass
  vertical : Option Bool
  guiType : PdType
  newObject : Bool
  deriving DecidableEq, Repr

/-- `GUIComponent::createGui(name, parent, newObject)`; `pdObject` is
`parent->pdObject.get()` (`none` for a null pointer), the result `none` is
`nullptr`. -/
def createGui (name : String) (pdObject : Option PdObject) (newObject : Bool) :
    Option CreatedGui :=
  match pdObject with
  | none => none
  | some PdObject.object => none
  | some (PdObject.gui t) =>
    if t = PdType.Bang then some ⟨ComponentClass.BangComponent, none, t, newObject⟩
    else if t = PdType.Toggle then some ⟨ComponentClass.ToggleComponent, none, t, newObject⟩
    else if t = PdType.HorizontalSlider then
      some ⟨ComponentClass.SliderComponent, some false, t, newObject⟩
    else if t = PdType.VerticalSlider then
      some ⟨ComponentClass.SliderComponent, some true, t, newObject⟩
    else if t = PdType.HorizontalRadio then
      some ⟨ComponentClass.RadioComponent, some false, t, newObject⟩
    else if t = PdType.VerticalRadio then
      some ⟨ComponentClass.RadioComponent, some true, t, newObject⟩
    else if t = PdType.Message then some ⟨ComponentClass.MessageComponent, none, t, newObject⟩
    else if t = PdType.Number then some ⟨ComponentClass.NumboxComponent, none, t, newObject⟩
    else if t = PdType.AtomList then some ⟨ComponentClass.ListComponent, none, t, newObject⟩
    else if t = PdType.Array then some ⟨ComponentClass.ArrayComponent, none, t, newObject⟩
    else if t = PdType.GraphOnParent then
      some ⟨ComponentClass.GraphOnParent, none, t, newObject⟩
    else if t = PdType.Subpatch then some ⟨ComponentClass.Subpatch, none, t, newObject⟩
    else if t = PdType.VuMeter then some ⟨ComponentClass.VUMeter, none, t, newObject⟩
    else if t = PdType.Panel then some ⟨ComponentClass.PanelComponent, none, t, newObject⟩
    else if t = PdType.Comment then some ⟨ComponentClass.CommentComponent, none, t, newObject⟩
    else if t = PdType.AtomNumber then
      some ⟨ComponentClass.NumboxComponent, none, t, newObject⟩
    else if t = PdType.AtomSymbol then
      some ⟨ComponentClass.MessageComponent, none, t, newObject⟩
    else if t = PdType.Mousepad then some ⟨ComponentClass.MousePad, none, t, newObject⟩
    else if t = PdType.Mouse then some ⟨ComponentClass.MouseComponent, none, t, newObject⟩
    else if t = PdType.Keyboard then
      some ⟨ComponentClass.KeyboardComponent, none, t, newObject⟩
    else none

/-- The unordered pairs of gui types that `createGui` serves with one class. -/
def sharedClassPair (a b : PdType) : Bool :=
  (a, b) ∈ [(PdType.HorizontalSlider, PdType.VerticalSlider),
            (PdType.VerticalSlider, PdType.HorizontalSlider),
            (PdType.HorizontalRadio, PdType.VerticalRadio),
            (PdType.VerticalRadio, PdType.HorizontalRadio),
            (PdType.Message, PdType.AtomSymbol),
            (PdType.AtomSymbol, PdType.Message),
            (PdType.Number, PdType.AtomNumber),
            (PdType.AtomNumber, PdType.Number)]

/-! ### `GUIObjects.cpp`: `GUIComponent::setValueOriginal` -/

/-- `std::min(a, b)`: `b` when `b < a`, else `a`. -/
def stdMin (a b : ℚ) : ℚ := if b < a then b else a

/-- `std::max(a, b)`: `b` when `a < b`, else `a`. -/
def stdMax (a b : ℚ) : ℚ := if a < b then b else a

/-- The fields of `GUIComponent` that `setValueOriginal` reads and writes:
`value`, the `min` and `max` juce `Value`s read as numbers, and the log of the
arguments handed to `gui.setValue` (the engine side, oldest first). -/
structure GUIComponent where
  value : ℚ
  min : ℚ
  max : ℚ
  guiSetValue : List ℚ
  deriving DecidableEq, Repr

/-- `GUIComponent::setValueOriginal(v)`. -/
def GUIComponent.setValueOriginal (c : GUIComponent) (v : ℚ) : GUIComponent :=
  let minimum := c.min
  let maximum := c.max
  let value := if minimum < maximum then stdMax (stdMin v maximum) minimum
               else stdMax (stdMin v minimum) maximum
  { c with value := value, guiSetValue := c.guiSetValue ++ [value] }

/-- `GUIComponent::getValueOriginal()`. -/
def GUIComponent.getValueOriginal (c : GUIComponent) : ℚ := c.value


/-! ### `Utility/PluginParameter.h`: `PlugDataParameter` -/

section Parameter

variable {K : Type} [LinearOrderedField K] [FloorRing K]

/-- The float arithmetic the range conversions run on. They are inputs of the
model: `pow`, `exp` and `log` are the `<cmath>` functions on `float`, and
`round` takes the exact result of an addition, subtraction, multiplication or
division of two floats to the float the operation returns. With `roundToFloat`
for `round` this is binary32 arithmetic; with the identity it is exact
arithmetic, where over the reals `pow`, `exp` and `log` are `Real.rpow`,
`Real.exp` and `Real.log`. Infinities and NaN are not modelled, so what is said
of a converted value is said for ranges with `start < end` and a positive
skew, where no conversion divides by zero. -/
structure MathFns (K : Type) where
  pow : K → K → K
  exp : K → K
  log : K → K
  round : K → K

/-- What exact `pow`, `exp` and `log` give for a skew factor `s`: `pow 0 s` is `0`, and for
`0 < p ≤ 1` the power `pow p s` stays in `(0, 1]` and
`exp (log (pow p s) / s)` is `p` again. -/
def ExactSkew (fns : MathFns K) (s : K) : Prop :=
  fns.pow 0 s = 0 ∧
  ∀ p : K, 0 < p → p ≤ 1 →
    0 < fns.pow p s ∧ fns.pow p s ≤ 1 ∧ fns.exp (fns.log (fns.pow p s) / s) = p

/-- `juce::NormalisableRange<float>` as this class uses it: built by the
three-argument constructor (no symmetric skew, no custom conversion
functions), with `skew` and `interval` assigned afterwards. Its conversions
round after every arithmetic operation (`MathFns.round`). -/
structure NormalisableRange (K : Type) where
  start : K
  end_ : K
  interval : K
  skew : K

/-- `juce::jlimit(lower, upper, v)`. -/
def jlimit (lower upper v : K) : K :=
  if v < lower then lower else if upper < v then upper else v

/-- `clampTo0To1` of `juce::NormalisableRange`. -/
def clampTo0To1 (v : K) : K := jlimit 0 1 v

/-- `std::clamp(v, lo, hi)`. -/
def stdClamp (v lo hi : K) : K :=
  if v < lo then lo else if hi < v then hi else v

/-- `NormalisableRange::convertTo0to1` (non-symmetric skew). -/
def NormalisableRange.convertTo0to1 (fns : MathFns K) (r : NormalisableRange K) (v : K) : K :=
  let proportion :=
    clampTo0To1 (fns.round (fns.round (v - r.start) / fns.round (r.end_ - r.start)))
  if r.skew = 1 then proportion else fns.pow proportion r.skew

/-- `NormalisableRange::convertFrom0to1` (non-symmetric skew). -/
def NormalisableRange.convertFrom0to1 (fns : MathFns K) (r : NormalisableRange K)
    (proportion : K) : K :=
  let proportion := clampTo0To1 proportion
  let proportion :=
    if r.skew ≠ 1 ∧ 0 < proportion then fns.exp (fns.round (fns.log proportion / r.skew))
    else proportion
  fns.round (r.start + fns.round (fns.round (r.end_ - r.start) * proportion))

/-- The values of `enum Mode`, held as the `int` they are cast from and to. -/
abbrev Mode := Int

/-- `Float = 1`. -/
abbrev Mode.Float : Mode := 1
/-- `Integer` (`= 2`). -/
abbrev Mode.Integer : Mode := 2
/-- `Logarithmic` (`= 3`). -/
abbrev Mode.Logarithmic : Mode := 3
/-- `Exponential` (`= 4`). -/
abbrev Mode.Exponential : Mode := 4

/-- The data members of `PlugDataParameter` (the `processor` reference, which
only receives host notifications, is left out). -/
structure PlugDataParameter (K : Type) where
  lastValue : K
  gestureState : K
  defaultValue : K
  index : Int
  value : K
  range : NormalisableRange K
  name : String
  enabled : Bool
  mode : Mode

/-- The constructor `PlugDataParameter(p, defaultName, def, enabled, idx, minimum, maximum)`. -/
def PlugDataParameter.new (fns : MathFns K) (defaultName : String) (def_ : K) (enabled : Bool)
    (idx : Int) (minimum maximum : K) : PlugDataParameter K :=
  let range : NormalisableRange K := ⟨minimum, maximum, 1 / 1000000, 1⟩
  { lastValue := 0, gestureState := 0, defaultValue := def_, index := idx,
    value := range.convertFrom0to1 fns def_, range := range, name := defaultName,
    enabled := enabled, mode := Mode.Float }

/-- `setInterval(interval)`. -/
def PlugDataParameter.setInterval (p : PlugDataParameter K) (interval : K) :
    PlugDataParameter K :=
  { p with range := { p.range with interval := interval } }

/-- `setRange(min, max)`. -/
def PlugDataParameter.setRange (p : PlugDataParameter K) (min max : K) : PlugDataParameter K :=
  { p with range := { p.range with start := min, end_ := max } }

/-- `getValue()`: the value normalised to `[0, 1]`. -/
def PlugDataParameter.getValue (fns : MathFns K) (p : PlugDataParameter K) : K :=
  p.range.convertTo0to1 fns p.value

/-- `setValue(newValue)`: takes a normalised value. -/
def PlugDataParameter.setValue (fns : MathFns K) (p : PlugDataParameter K) (newValue : K) :
    PlugDataParameter K :=
  { p with value := p.range.convertFrom0to1 fns newValue }

/-- `AudioProcessorParameter::setValueNotifyingHost(newValue)`: `setValue`, then
the listeners are told (no state of the parameter changes by that). -/
def PlugDataParameter.setValueNotifyingHost (fns : MathFns K) (p : PlugDataParameter K)
    (newValue : K) : PlugDataParameter K :=
  p.setValue fns newValue

/-- `getUnscaledValue()`. -/
def PlugDataParameter.getUnscaledValue (p : PlugDataParameter K) : K := p.value

/-- `setUnscaledValueNotifyingHost(newValue)`. -/
def PlugDataParameter.setUnscaledValueNotifyingHost (p : PlugDataParameter K) (newValue : K) :
    PlugDataParameter K :=
  { p with value := stdClamp newValue p.range.start p.range.end_ }

/-- `setMode(newMode)`; the closing `notifyDAW()` changes no parameter state. -/
def PlugDataParameter.setMode (fns : MathFns K) (p : PlugDataParameter K) (newMode : Mode) :
    PlugDataParameter K :=
  let p := { p with mode := newMode }
  if newMode = Mode.Logarithmic then
    ({ p with range := { p.range with skew := 4 } }).setInterval (1 / 1000000)
  else if newMode = Mode.Exponential then
    ({ p with range := { p.range with skew := 1 / 4 } }).setInterval (1 / 1000000)
  else if newMode = Mode.Float then
    ({ p with range := { p.range with skew := 1 } }).setInterval (1 / 1000000)
  else if newMode = Mode.Integer then
    let p := { p with range := { p.range with skew := 1 } }
    let p := p.setRange (Int.floor p.range.start) (Int.floor p.range.end_)
    let p := p.setInterval 1
    p.setValue fns (Int.floor (p.getValue fns))
  else p

/-- `setName(newName)`. -/
def PlugDataParameter.setName (p : PlugDataParameter K) (newName : String) :
    PlugDataParameter K :=
  { p with name := newName }

/-- `getTitle()`. -/
def PlugDataParameter.getTitle (p : PlugDataParameter K) : String := p.name

/-- `setEnabled(shouldBeEnabled)`. -/
def PlugDataParameter.setEnabled (p : PlugDataParameter K) (shouldBeEnabled : Bool) :
    PlugDataParameter K :=
  let p := if !p.enabled && shouldBeEnabled then
      { p with range := ⟨0, 1, 1 / 1000000, 1⟩, mode := Mode.Float }
    else p
  { p with enabled := shouldBeEnabled }

/-- `setIndex(idx)`. -/
def PlugDataParameter.setIndex (p : PlugDataParameter K) (idx : Int) : PlugDataParameter K :=
  { p with index := idx }

/-- The text conversions of `juce::String` that reading an attribute with a
type other than the one it was written with goes through. They are inputs of
the model. -/
structure JuceString (K : Type) where
  getDoubleValue : String → K
  getIntValue : String → Int
  fromDouble : K → String

/-- The value of an XML attribute, by the `setAttribute` overload that wrote
it: a string, a `double` (kept exactly) or an `int`. -/
inductive XmlValue (K : Type) where
  | text (s : String)
  | number (x : K)
  | integer (n : Int)

/-- The attribute's text. -/
def XmlValue.toText (js : JuceString K) : XmlValue K → String
  | XmlValue.text s => s
  | XmlValue.number x => js.fromDouble x
  | XmlValue.integer n => toString n

/-- The attribute read as a `double`. -/
def XmlValue.toDouble (js : JuceString K) : XmlValue K → K
  | XmlValue.text s => js.getDoubleValue s
  | XmlValue.number x => x
  | XmlValue.integer n => js.getDoubleValue (toString n)

/-- The attribute read as an `int`. -/
def XmlValue.toInt (js : JuceString K) : XmlValue K → Int
  | XmlValue.text s => js.getIntValue s
  | XmlValue.number x => js.getIntValue (js.fromDouble x)
  | XmlValue.integer n => n

/-- `juce::XmlElement`: tag name, attributes in order, child elements in order. -/
inductive XmlElement (K : Type) where
  | mk (tagName : String) (attributes : List (String × XmlValue K))
      (children : List (XmlElement K))

/-- The tag name. -/
def XmlElement.tagName : XmlElement K → String
  | XmlElement.mk t _ _ => t

/-- The attribute list. -/
def XmlElement.attributes : XmlElement K → List (String × XmlValue K)
  | XmlElement.mk _ a _ => a

/-- The child elements. -/
def XmlElement.children : XmlElement K → List (XmlElement K)
  | XmlElement.mk _ _ c => c

/-- `new XmlElement(tagName)`. -/
def XmlElement.new (tagName : String) : XmlElement K := XmlElement.mk tagName [] []

/-- Replaces the value of the first attribute called `name`, or appends one. -/
def setAttributeIn (name : String) (v : XmlValue K) :
    List (String × XmlValue K) → List (String × XmlValue K)
  | [] => [(name, v)]
  | (n, w) :: rest => if n = name then (n, v) :: rest else (n, w) :: setAttributeIn name v rest

/-- `XmlElement::setAttribute(name, value)`. -/
def XmlElement.setAttribute (e : XmlElement K) (name : String) (v : XmlValue K) :
    XmlElement K :=
  XmlElement.mk e.tagName (setAttributeIn name v e.attributes) e.children

/-- `XmlElement::addChildElement(child)`: appended after the existing children. -/
def XmlElement.addChildElement (e : XmlElement K) (child : XmlElement K) : XmlElement K :=
  XmlElement.mk e.tagName e.attributes (e.children ++ [child])

/-- The first attribute called `name`, if any. -/
def XmlElement.getAttribute (e : XmlElement K) (name : String) : Option (XmlValue K) :=
  (e.attributes.find? (fun a => a.1 = name)).map Prod.snd

/-- `XmlElement::hasAttribute(name)`. -/
def XmlElement.hasAttribute (e : XmlElement K) (name : String) : Bool :=
  (e.getAttribute name).isSome

/-- `XmlElement::getStringAttribute(name)`: the empty string when absent. -/
def XmlElement.getStringAttribute (js : JuceString K) (e : XmlElement K) (name : String) :
    String :=
  match e.getAttribute name with
  | some v => v.toText js
  | none => ""

/-- `XmlElement::getDoubleAttribute(name, defaultReturnValue)`. -/
def XmlElement.getDoubleAttribute (js : JuceString K) (e : XmlElement K) (name : String)
    (defaultReturnValue : K) : K :=
  match e.getAttribute name with
  | some v => v.toDouble js
  | none => defaultReturnValue

/-- `XmlElement::getIntAttribute(name, defaultReturnValue)`. -/
def XmlElement.getIntAttribute (js : JuceString K) (e : XmlElement K) (name : String)
    (defaultReturnValue : Int) : Int :=
  match e.getAttribute name with
  | some v => v.toInt js
  | none => defaultReturnValue

/-- `XmlElement::compareAttribute(name, stringToCompareAgainst)`. -/
def XmlElement.compareAttribute (js : JuceString K) (e : XmlElement K) (name : String)
    (stringToCompareAgainst : String) : Bool :=
  match e.getAttribute name with
  | some v => v.toText js = stringToCompareAgainst
  | none => false

/-- `XmlElement::getChildByAttribute(name, value)`: the first child whose
attribute `name` has the text `value`; `none` is the null pointer. -/
def XmlElement.getChildByAttribute (js : JuceString K) (e : XmlElement K) (name value : String) :
    Option (XmlElement K) :=
  e.children.find? (fun c => c.compareAttribute js name value)

/-- The `Array<AudioProcessorParameter*>` both functions receive: the volume
parameter at index 0, of which only `getValue`/`setValueNotifyingHost` are
used and which is held as its normalised value, and the `PlugDataParameter`s
at the indices `1, 2, ...` (`params[k]` is `parameters[k + 1]`). -/
structure ParameterArray (K : Type) where
  volume : K
  params : List (PlugDataParameter K)

/-- The `PARAM` element that the loop body of `saveStateInformation` builds
for `parameters[i]`. -/
def paramXml (fns : MathFns K) (i : Nat) (param : PlugDataParameter K) : XmlElement K :=
  let paramXml : XmlElement K := XmlElement.new "PARAM"
  let paramXml := paramXml.setAttribute "id" (XmlValue.text ("param" ++ toString i))
  let paramXml := paramXml.setAttribute "name" (XmlValue.text param.getTitle)
  let paramXml := paramXml.setAttribute "min" (XmlValue.number param.range.start)
  let paramXml := paramXml.setAttribute "max" (XmlValue.number param.range.end_)
  let paramXml := paramXml.setAttribute "enabled" (XmlValue.integer (if param.enabled then 1 else 0))
  let paramXml := paramXml.setAttribute "value" (XmlValue.number (param.getValue fns))
  let paramXml := paramXml.setAttribute "index" (XmlValue.integer param.index)
  paramXml.setAttribute "mode" (XmlValue.integer param.mode)

/-- The loop `for (int i = 1; i < parameters.size(); i++)` of
`saveStateInformation`, entered at index `i` with the parameters from there on. -/
def saveLoop (fns : MathFns K) : Nat → List (PlugDataParameter K) → XmlElement K → XmlElement K
  | _, [], xml => xml
  | i, param :: rest, xml => saveLoop fns (i + 1) rest (xml.addChildElement (paramXml fns i param))

/-- `PlugDataParameter::saveStateInformation(xml, parameters)`. -/
def saveStateInformation (fns : MathFns K) (xml : XmlElement K) (parameters : ParameterArray K) :
    XmlElement K :=
  let volumeXml : XmlElement K := XmlElement.new "PARAM"
  let volumeXml := volumeXml.setAttribute "id" (XmlValue.text "volume")
  let volumeXml := volumeXml.setAttribute "value" (XmlValue.number parameters.volume)
  let xml := xml.addChildElement volumeXml
  saveLoop fns 1 parameters.params xml

/-- The body of the loop of `loadStateInformation` for `parameters[i]` once
`xmlParam` is found. `uninit` is the indeterminate value the local `Mode mode;`
holds when the element has no `mode` attribute (it is declared without an
initialiser). -/
def loadParam (js : JuceString K) (fns : MathFns K) (uninit : Mode) (i : Nat)
    (xmlParam : XmlElement K) (param : PlugDataParameter K) : PlugDataParameter K :=
  let navalue := xmlParam.getDoubleAttribute js "value" (param.getValue fns)
  let name := if xmlParam.hasAttribute "name" then xmlParam.getStringAttribute js "name"
              else "param" ++ toString i
  let min := if xmlParam.hasAttribute "min" then xmlParam.getDoubleAttribute js "min" 0 else 0
  let max := if xmlParam.hasAttribute "max" then xmlParam.getDoubleAttribute js "max" 0 else 1
  let enabled := if xmlParam.hasAttribute "enabled" then
      decide (xmlParam.getIntAttribute js "enabled" 0 ≠ 0) else true
  let index : Int := if xmlParam.hasAttribute "index" then xmlParam.getIntAttribute js "index" 0
                     else i
  let mode : Mode := if xmlParam.hasAttribute "mode" then xmlParam.getIntAttribute js "mode" 0
                     else uninit
  let param := param.setEnabled enabled
  let param := param.setRange min max
  let param := param.setName name
  let param := param.setValueNotifyingHost fns navalue
  let param := param.setIndex index
  param.setMode fns mode

/-- The loop `for (int i = 1; i < parameters.size(); i++)` of
`loadStateInformation`, entered at index `i`; `uninit j` is the indeterminate
initial value of the local `mode` in the iteration for index `j`. -/
def loadLoop (js : JuceString K) (fns : MathFns K) (uninit : Nat → Mode) (xml : XmlElement K) :
    Nat → List (PlugDataParameter K) → List (PlugDataParameter K)
  | _, [] => []
  | i, param :: rest =>
    (match xml.getChildByAttribute js "id" ("param" ++ toString i) with
      | none => param
      | some xmlParam => loadParam js fns (uninit i) i xmlParam param)
    :: loadLoop js fns uninit xml (i + 1) rest

/-- `PlugDataParameter::loadStateInformation(xml, parameters)`. -/
def loadStateInformation (js : JuceString K) (fns : MathFns K) (uninit : Nat → Mode)
    (xml : XmlElement K) (parameters : ParameterArray K) : ParameterArray K :=
  let volume :=
    match xml.getChildByAttribute js "id" "volume" with
    | some volumeParam => volumeParam.getDoubleAttribute js "value" parameters.volume
    | none => parameters.volume
  { volume := volume, params := loadLoop js fns uninit xml 1 parameters.params }

end Parameter

section ParameterInputs

/-- Text conversions for the concrete inputs below, none of which reads an
attribute with another type than the one it was written with. -/
def plainText (K : Type) [LinearOrderedField K] : JuceString K :=
  ⟨fun _ => 0, fun _ => 0, fun _ => ""⟩

/-- Exact arithmetic on rationals, with stand-ins for `std::pow`, `std::exp`
and `std::log`, for the concrete inputs below with skew 1, where none of the
three is called. -/
def ratFns : MathFns ℚ := ⟨fun _ _ => 0, fun _ => 0, fun _ => 0, fun x => x⟩

/-- The number of binary digits of `n` (0 for `n = 0`), for `n ≤ fuel`. -/
def bitLength : Nat → Nat → Nat
  | 0, _ => 0
  | fuel + 1, n => if n = 0 then 0 else bitLength fuel (n / 2) + 1

/-- The binary32 number nearest to `N / D`, for `N` and `D` positive, as a
fraction in lowest terms. With `e` the exponent for which
`2 ^ 23 ≤ (N / D) / 2 ^ e < 2 ^ 24`, the quotient `(N / D) / 2 ^ e` is rounded
to a whole number `n`, to nearest and a tie to the even one, and the result is
`n * 2 ^ e`. -/
def roundNat (N D : Nat) : Nat × Nat :=
  let e0 : Int := (bitLength N N : Int) - (bitLength D D : Int) - 23
  let e : Int := if N * 2 ^ (-e0).toNat < 2 ^ 23 * (D * 2 ^ e0.toNat) then e0 - 1 else e0
  let num := N * 2 ^ (-e).toNat
  let den := D * 2 ^ e.toNat
  let f := num / den
  let r := num % den
  let n := if 2 * r < den then f else if den < 2 * r then f + 1
    else if f % 2 = 0 then f else f + 1
  let a := n * 2 ^ e.toNat
  let b := 2 ^ (-e).toNat
  (a / Nat.gcd a b, b / Nat.gcd a b)

/-- Rounding of an exact result to binary32, to nearest with ties to even
(the rounding of the `float` operations); 24 binary digits are kept.
Subnormal numbers and overflow are not modelled. -/
def roundToFloat (x : ℚ) : ℚ :=
  if x.num = 0 then 0
  else
    let nd := roundNat x.num.natAbs x.den
    if x.num < 0 then -((nd.1 : ℚ) / (nd.2 : ℚ)) else (nd.1 : ℚ) / (nd.2 : ℚ)

/-- Binary32 arithmetic on rationals, with stand-ins for `std::pow`,
`std::exp` and `std::log`, for the concrete inputs below with skew 1, where
none of the three is called. -/
def floatFns : MathFns ℚ := ⟨fun _ _ => 0, fun _ => 0, fun _ => 0, roundToFloat⟩

/-- A `Float` parameter with range `[0, 10]` that has been set to the float
nearest to 0.8, which is 13421773 / 2 ^ 24. -/
def tenthsParam : PlugDataParameter ℚ :=
  ((PlugDataParameter.new floatFns "param3" 0 true 3 0 1).setRange 0
    10).setUnscaledValueNotifyingHost (roundToFloat (8 / 10))

/-- A parameter put in `Integer` mode whose range was then set to
`[1/2, 19/2]`; its value is 1/2. -/
def halvesParam : PlugDataParameter ℚ :=
  (((PlugDataParameter.new floatFns "param4" 0 true 4 0 1).setMode floatFns
    Mode.Integer).setRange (1 / 2) (19 / 2)).setUnscaledValueNotifyingHost (1 / 2)

/-- A parameter in `Integer` mode with range `[0, 10]` that has been moved to
the value 5. -/
def integerParam : PlugDataParameter ℚ :=
  (((PlugDataParameter.new ratFns "param1" 0 true 1 0 1).setRange 0 10).setMode ratFns
    Mode.Integer).setUnscaledValueNotifyingHost 5

/-- A `Float` parameter built with range `[0, 1]` and value 1/2 whose range
was then set to `[2, 3]`. -/
def shiftedParam : PlugDataParameter ℚ :=
  (PlugDataParameter.new ratFns "param2" (1 / 2) true 2 0 1).setRange 2 3

/-- A logarithmic parameter with range `[0, 20]` at the value 5. -/
def logParam (K : Type) [LinearOrderedField K] : PlugDataParameter K :=
  { lastValue := 0, gestureState := 0, defaultValue := 0, index := 1, value := 5,
    range := ⟨0, 20, 1 / 1000000, 4⟩, name := "cutoff", enabled := true,
    mode := Mode.Logarithmic }

/-- A disabled exponential parameter with range `[-1, 1]` at the value 1/3. -/
def expParam (K : Type) [LinearOrderedField K] : PlugDataParameter K :=
  { lastValue := 0, gestureState := 0, defaultValue := 0, index := 2, value := 1 / 3,
    range := ⟨-1, 1, 1 / 1000000, 1 / 4⟩, name := "pan", enabled := false,
    mode := Mode.Exponential }

/-- A parameter array with the logarithmic and the exponential parameter
above, followed by a parameter in `Integer` mode. -/
def skewedParams (K : Type) [LinearOrderedField K] : ParameterArray K :=
  { volume := 1 / 2,
    params := [logParam K, expParam K,
      { lastValue := 0, gestureState := 0, defaultValue := 0, index := 3, value := 5,
        range := ⟨0, 10, 1, 1⟩, name := "steps", enabled := true, mode := Mode.Integer }] }

/-- State written by a legacy version: one `PARAM` element for `param1` with a
value and the mode `Float`, and nothing else. -/
def legacyFloatXml : XmlElement ℚ :=
  XmlElement.mk "plugdata_save" []
    [XmlElement.mk "PARAM"
      [("id", XmlValue.text "param1"), ("value", XmlValue.number (1 / 2)),
       ("mode", XmlValue.integer 1)] []]

/-- State without the `mode` attribute: one `PARAM` element for `param1` with
the range `[1/2, 3/2]`. -/
def legacyNoModeXml : XmlElement ℚ :=
  XmlElement.mk "plugdata_save" []
    [XmlElement.mk "PARAM"
      [("id", XmlValue.text "param1"), ("min", XmlValue.number (1 / 2)),
       ("max", XmlValue.number (3 / 2))] []]

end ParameterInputs

/-! ### `Sidebar/DocumentBrowser.h`: `DocumentBrowserItem::rebuildItemsFromContentList` -/

/-- A `juce::File` as the browser queries it: its file name and what the file
system reports for its path (whether anything exists there, and whether that
is a directory). -/
structure File where
  fileName : String
  onDisk : Bool
  directory : Bool
  deriving DecidableEq, Repr

/-- `File::exists()`. -/
def File.exists (f : File) : Bool := f.onDisk

/-- `File::isDirectory()`: the path exists and is a directory. -/
def File.isDirectory (f : File) : Bool := f.onDisk && f.directory

/-- `File::existsAsFile()`, in JUCE `exists() && ! isDirectory()`. -/
def File.existsAsFile (f : File) : Bool := f.exists && !f.isDirectory

/-- `File::getFileName()`. -/
def File.getFileName (f : File) : String := f.fileName

/-- `String::startsWithChar(character)`: the first character is `character`
(false for the empty string). -/
def startsWithChar (s : String) (character : Char) : Bool :=
  match s.data with
  | [] => false
  | c :: _ => c = character

/-- A sub-item as `new DocumentBrowserItem(owner, subContentsList, i, idx, file)`
builds it. -/
structure SubItem where
  indexInContents : Nat
  indexInParent : Nat
  file : File
  deriving DecidableEq, Repr

/-- The fields of a `DocumentBrowserItem` that `rebuildItemsFromContentList`
uses: `isOpen()`, the `subContentsList` (`none` for `nullptr`, else the files
of the list in order) and the sub-items of the tree item. -/
structure DocumentBrowserItem where
  isOpen : Bool
  subContentsList : Option (List File)
  subItems : List SubItem
  deriving DecidableEq, Repr

/-- `clearSubItems()`. -/
def DocumentBrowserItem.clearSubItems (item : DocumentBrowserItem) : DocumentBrowserItem :=
  { item with subItems := [] }

/-- `addSubItem(newItem)`: appended after the existing sub-items. -/
def DocumentBrowserItem.addSubItem (item : DocumentBrowserItem) (newItem : SubItem) :
    DocumentBrowserItem :=
  { item with subItems := item.subItems ++ [newItem] }

/-- The condition of the first loop. -/
def isShownDirectory (f : File) : Bool :=
  f.isDirectory && !startsWithChar f.getFileName '.'

/-- The condition of the second loop. -/
def isShownFile (f : File) : Bool :=
  f.existsAsFile && !startsWithChar f.getFileName '.'

/-- One of the two loops `for (int i = 0; i < subContentsList->getNumFiles(); ++i)`,
entered at index `i` with the files from there on, the running `idx` and the
item; `cond` is the loop's `if` condition on `subContentsList->getFile(i)`. -/
def addLoop (cond : File → Bool) :
    Nat → List File → Nat × DocumentBrowserItem → Nat × DocumentBrowserItem
  | _, [], st => st
  | i, f :: rest, (idx, item) =>
    if cond f then addLoop cond (i + 1) rest (idx + 1, item.addSubItem ⟨i, idx, f⟩)
    else addLoop cond (i + 1) rest (idx, item)

/-- `DocumentBrowserItem::rebuildItemsFromContentList()`. -/
def DocumentBrowserItem.rebuildItemsFromContentList (item : DocumentBrowserItem) :
    DocumentBrowserItem :=
  let item := item.clearSubItems
  match item.isOpen, item.subContentsList with
  | true, some files =>
    let idx := 0
    let st := addLoop isShownDirectory 0 files (idx, item)
    let st := addLoop isShownFile 0 files st
    st.2
  | _, _ => item

/-- The entries of a contents list, from index `i` on, that satisfy `cond`,
each with its index in the list. -/
def matching (cond : File → Bool) : Nat → List File → List (Nat × File)
  | _, [] => []
  | i, f :: rest =>
    if cond f then (i, f) :: matching cond (i + 1) rest else matching cond (i + 1) rest

/-- The sub-items for a list of indexed entries, numbered from `idx` on. -/
def mkItems : Nat → List (Nat × File) → List SubItem
  | _, [] => []
  | idx, (i, f) :: rest => ⟨i, idx, f⟩ :: mkItems (idx + 1) rest

/-- The order the browser puts two sub-items in, `a` before `b`: a directory
before a regular file, or two entries of the same kind in the order of the
contents list. -/
def FoldersFirst (a b : SubItem) : Prop :=
  (a.file.isDirectory = true ∧ b.file.existsAsFile = true) ∨
  (a.file.isDirectory = b.file.isDirectory ∧ a.indexInContents < b.indexInContents)

/-- A contents list with a hidden directory, two directories, a file that no
longer exists and two files. -/
def sampleContents : List File :=
  [⟨"b.pd", true, false⟩, ⟨".git", true, true⟩, ⟨"abstractions", true, true⟩,
   ⟨"gone.pd", false, false⟩, ⟨"a.pd", true, false⟩, ⟨"Extra", true, true⟩]

/-! ### `Objects/ObjectImplementations.h`: `KeyObject` -/

/-- A `juce::KeyPress`: key code, raw modifier flags and text character. -/
structure KeyPress where
  keyCode : Int
  mods : Nat
  textCharacter : Char
  deriving DecidableEq, Repr

/-- `KeyPress()`, which `Array::operator[]` returns for an index out of range. -/
instance : Inhabited KeyPress := ⟨⟨0, 0, Char.ofNat 0⟩⟩

/-- `KeyPress(keyCode)`: no modifiers, no text character. -/
def KeyPress.ofCode (keyCode : Int) : KeyPress := ⟨keyCode, 0, Char.ofNat 0⟩

/-- `getKeyCode()`. -/
def KeyPress.getKeyCode (k : KeyPress) : Int := k.keyCode

/-- `getModifiers().isShiftDown()`: `ModifierKeys::shiftModifier` is flag 1. -/
def KeyPress.isShiftDown (k : KeyPress) : Bool := k.mods % 2 = 1

/-- What JUCE supplies to `KeyObject` and the sources do not define: the key
code constants of `juce::KeyPress`, whether `JUCE_MAC` is set, and the library
functions `KeyPress::getTextDescription`, `KeyPress::operator==` and
`String::toLowerCase`. -/
structure Juce where
  backspaceKey : Int
  tabKey : Int
  returnKey : Int
  escapeKey : Int
  spaceKey : Int
  deleteKey : Int
  upKey : Int
  downKey : Int
  leftKey : Int
  rightKey : Int
  homeKey : Int
  endKey : Int
  pageUpKey : Int
  pageDownKey : Int
  F1Key : Int
  F2Key : Int
  F3Key : Int
  F4Key : Int
  F5Key : Int
  F6Key : Int
  F7Key : Int
  F8Key : Int
  F9Key : Int
  F10Key : Int
  F11Key : Int
  F12Key : Int
  numberPad0 : Int
  numberPad1 : Int
  numberPad2 : Int
  numberPad3 : Int
  numberPad4 : Int
  numberPad5 : Int
  numberPad6 : Int
  numberPad7 : Int
  numberPad8 : Int
  numberPad9 : Int
  JUCE_MAC : Bool
  getTextDescription : KeyPress → String
  keyPressEq : KeyPress → KeyPress → Bool
  toLowerCase : String → String

/-- `shiftKey = -1`. -/
def shiftKey : Int := -1
/-- `commandKey = -2`. -/
def commandKey : Int := -2
/-- `altKey = -3`. -/
def altKey : Int := -3
/-- `ctrlKey = -4`. -/
def ctrlKey : Int := -4

/-- `enum KeyObjectType`. -/
inductive KeyObjectType where
  | Key | KeyUp | KeyName
  deriving DecidableEq, Repr

/-- An atom of a Pd message: a float (the key numbers and the flags 0 and 1 are
whole numbers) or a symbol, named by the string `generateSymbol` was given. -/
inductive Atom where
  | float (v : Int)
  | symbol (s : String)
  deriving DecidableEq, Repr

/-- The fields of `KeyObject`, and the log of the messages handed to
`pd->sendDirectMessage` for the wrapped object (oldest first). -/
structure KeyObject where
  heldKeys : List KeyPress
  keyPressTimes : List Nat
  type : KeyObjectType
  sent : List (List Atom)
  deriving DecidableEq, Repr

/-- `KeyObject::parseKey(keynum, keysym)`; both are passed by reference, the
result is their values on return. -/
def parseKey (juce : Juce) (keynum : Int) (keysym : String) : Int × String :=
  if keynum = shiftKey then (0, "Shift_L")
  else if keynum = commandKey then (0, "Meta_L")
  else if keynum = altKey then (0, "Alt_L")
  else if keynum = ctrlKey then (0, "Control_L")
  else if keynum = juce.backspaceKey then (keynum, "BackSpace")
  else if keynum = juce.tabKey then (9, "Tab")
  else if keynum = juce.returnKey then (10, "Return")
  else if keynum = juce.escapeKey then (27, "Escape")
  else if keynum = juce.spaceKey then (32, "Space")
  else if keynum = juce.deleteKey then (127, "Delete")
  else if keynum = juce.upKey then (0, "Up")
  else if keynum = juce.downKey then (0, "Down")
  else if keynum = juce.leftKey then (0, "Left")
  else if keynum = juce.rightKey then (0, "Right")
  else if keynum = juce.homeKey then (0, "Home")
  else if keynum = juce.endKey then (0, "End")
  else if keynum = juce.pageUpKey then (0, "Prior")
  else if keynum = juce.pageDownKey then (0, "Next")
  else if keynum = juce.F1Key then (0, "F1")
  else if keynum = juce.F2Key then (0, "F2")
  else if keynum = juce.F3Key then (0, "F3")
  else if keynum = juce.F4Key then (0, "F4")
  else if keynum = juce.F5Key then (0, "F5")
  else if keynum = juce.F6Key then (0, "F6")
  else if keynum = juce.F7Key then (0, "F7")
  else if keynum = juce.F8Key then (0, "F8")
  else if keynum = juce.F9Key then (0, "F9")
  else if keynum = juce.F10Key then (0, "F10")
  else if keynum = juce.F11Key then (0, "F11")
  else if keynum = juce.F12Key then (0, "F12")
  else if keynum = juce.numberPad0 then (48, "0")
  else if keynum = juce.numberPad1 then (49, "1")
  else if keynum = juce.numberPad2 then (50, "2")
  else if keynum = juce.numberPad3 then (51, "3")
  else if keynum = juce.numberPad4 then (52, "4")
  else if keynum = juce.numberPad5 then (53, "5")
  else if keynum = juce.numberPad6 then (54, "6")
  else if keynum = juce.numberPad7 then (55, "7")
  else if keynum = juce.numberPad8 then (56, "8")
  else if keynum = juce.numberPad9 then (57, "9")
  else if juce.JUCE_MAC && decide (65 ≤ keynum) && decide (keynum ≤ 90) then (keynum + 32, keysym)
  else (keynum, keysym)

/-- `Array::indexOf(key)`: the first index whose element equals `key`, or -1. -/
def indexOf (eq : KeyPress → KeyPress → Bool) : List KeyPress → KeyPress → Int
  | [], _ => -1
  | k :: rest, key =>
    if eq key k then 0
    else
      let r := indexOf eq rest key
      if r < 0 then -1 else r + 1

/-- `Array::set(index, value)`: replaces the element, or appends the value when
the index is past the end. -/
def arraySet (l : List Nat) (index : Nat) (value : Nat) : List Nat :=
  if index < l.length then l.set index value else l ++ [value]

/-- `String::fromLastOccurrenceOf(" ", false, false)`: the part after the last
blank, the whole string when it has none. -/
def fromLastBlank (s : String) : String :=
  String.mk (s.data.reverse.takeWhile (fun c => c ≠ ' ')).reverse

/-- `String::startsWith("#")`. -/
def startsWithHash (s : String) : Bool :=
  match s.data with
  | [] => false
  | c :: _ => c = '#'

/-- `String::charToString(character)`: empty for the null character. -/
def charToString (character : Char) : String :=
  if character.toNat = 0 then "" else String.mk [character]

/-- The symbol name the `KeyName` branches compute for a key before
`parseKey` sees it: the part of the text description after its last blank,
replaced by the text character when it starts with `#`, in lower case unless
shift is down. -/
def keyString (juce : Juce) (key : KeyPress) : String :=
  let keyString := fromLastBlank (juce.getTextDescription key)
  let keyString := if startsWithHash keyString then charToString key.textCharacter
    else keyString
  if !key.isShiftDown then juce.toLowerCase keyString else keyString

/-- The difference `currentTime - keyPressTimes[keyIdx]` of two `uint32`. -/
def uint32Sub (a b : Nat) : Nat := (a + 2 ^ 32 - b % 2 ^ 32) % 2 ^ 32

/-- `KeyObject::keyPressed(key, originatingComponent)`. The inputs besides the
key are what the call reads from outside: `pd->isPerformingGlobalSync`,
whether `ptr.get<t_pd>()` yields the object (`objectAlive`), and the two
results of `Time::getMillisecondCounter()`. The result is the returned `bool`
and the object afterwards. -/
def KeyObject.keyPressed (juce : Juce) (isPerformingGlobalSync objectAlive : Bool)
    (currentTime addTime : Nat) (o : KeyObject) (key : KeyPress) : Bool × KeyObject :=
  if isPerformingGlobalSync then (false, o)
  else
    let keyIdx := indexOf juce.keyPressEq o.heldKeys key
    let alreadyDown := decide (0 ≤ keyIdx)
    let updated : Option KeyObject :=
      if alreadyDown && decide (15 < uint32Sub currentTime (o.keyPressTimes.getD keyIdx.toNat 0))
      then some { o with keyPressTimes := arraySet o.keyPressTimes keyIdx.toNat currentTime }
      else if !alreadyDown then
        some { o with heldKeys := o.heldKeys ++ [key],
                      keyPressTimes := o.keyPressTimes ++ [addTime] }
      else none
    match updated with
    | none => (false, o)
    | some o =>
      let keyCode := key.getKeyCode
      if o.type = KeyObjectType.Key then
        let parsed := parseKey juce keyCode ""
        if objectAlive then (false, { o with sent := o.sent ++ [[Atom.float parsed.1]] })
        else (false, o)
      else if o.type = KeyObjectType.KeyName then
        let parsed := parseKey juce keyCode (keyString juce key)
        if objectAlive then
          (false, { o with sent := o.sent ++ [[Atom.float 1, Atom.symbol parsed.2]] })
        else (false, o)
      else (false, o)

/-- The body of the loop of `keyStateChanged` for index `n`. `isCurrentlyDown`
is `KeyPress::isCurrentlyDown()` at the time of the call. -/
def releaseStep (juce : Juce) (objectAlive isKeyDown : Bool) (isCurrentlyDown : KeyPress → Bool)
    (o : KeyObject) (n : Nat) : KeyObject :=
  let key := o.heldKeys.getD n default
  let keyDown := if key.getKeyCode < 0 then isKeyDown else isCurrentlyDown key
  if !keyDown then
    let keyCode := key.getKeyCode
    let o :=
      if o.type = KeyObjectType.KeyUp then
        let parsed := parseKey juce keyCode ""
        if objectAlive then { o with sent := o.sent ++ [[Atom.float parsed.1]] } else o
      else if o.type = KeyObjectType.KeyName then
        let parsed := parseKey juce keyCode (keyString juce key)
        if objectAlive then { o with sent := o.sent ++ [[Atom.float 0, Atom.symbol parsed.2]] }
        else o
      else o
    { o with keyPressTimes := o.keyPressTimes.eraseIdx n, heldKeys := o.heldKeys.eraseIdx n }
  else o

/-- The loop `for (int n = heldKeys.size() - 1; n >= 0; n--)` of
`keyStateChanged` with `count` iterations left, the next one for index
`count - 1`. -/
def releaseLoop (juce : Juce) (objectAlive isKeyDown : Bool) (isCurrentlyDown : KeyPress → Bool) :
    Nat → KeyObject → KeyObject
  | 0, o => o
  | n + 1, o =>
    releaseLoop juce objectAlive isKeyDown isCurrentlyDown n
      (releaseStep juce objectAlive isKeyDown isCurrentlyDown o n)

/-- `KeyObject::keyStateChanged(isKeyDown, originatingComponent)`. -/
def KeyObject.keyStateChanged (juce : Juce) (isPerformingGlobalSync objectAlive : Bool)
    (isCurrentlyDown : KeyPress → Bool) (o : KeyObject) (isKeyDown : Bool) : Bool × KeyObject :=
  if isPerformingGlobalSync then (false, o)
  else if !isKeyDown then
    (false, releaseLoop juce objectAlive isKeyDown isCurrentlyDown o.heldKeys.length o)
  else (false, o)

/-- Whether `keyPressed` returns before sending: a global sync is in progress,
or the key is already held and was last recorded at most 15 ms ago. -/
def suppressed (juce : Juce) (isPerformingGlobalSync : Bool) (currentTime : Nat) (o : KeyObject)
    (key : KeyPress) : Bool :=
  isPerformingGlobalSync ||
    (decide (0 ≤ indexOf juce.keyPressEq o.heldKeys key) &&
      decide (uint32Sub currentTime
        (o.keyPressTimes.getD (indexOf juce.keyPressEq o.heldKeys key).toNat 0) ≤ 15))

/-- Whether `keyStateChanged(false)` finds a held key released: its key code
is one of the negative modifier codes, or it is not currently down. -/
def foundReleased (isCurrentlyDown : KeyPress → Bool) (key : KeyPress) : Bool :=
  if key.getKeyCode < 0 then true else !isCurrentlyDown key

/-- Key codes as on Linux and Windows builds of JUCE are not needed for the
statements; this instance uses small distinct codes, structural equality of
key presses and ASCII lower case. -/
def sampleJuce : Juce :=
  { backspaceKey := 8, tabKey := 9, returnKey := 13, escapeKey := 27, spaceKey := 32,
    deleteKey := 1000, upKey := 1001, downKey := 1002, leftKey := 1003, rightKey := 1004,
    homeKey := 1005, endKey := 1006, pageUpKey := 1007, pageDownKey := 1008,
    F1Key := 1011, F2Key := 1012, F3Key := 1013, F4Key := 1014, F5Key := 1015, F6Key := 1016,
    F7Key := 1017, F8Key := 1018, F9Key := 1019, F10Key := 1020, F11Key := 1021, F12Key := 1022,
    numberPad0 := 1030, numberPad1 := 1031, numberPad2 := 1032, numberPad3 := 1033,
    numberPad4 := 1034, numberPad5 := 1035, numberPad6 := 1036, numberPad7 := 1037,
    numberPad8 := 1038, numberPad9 := 1039,
    JUCE_MAC := false,
    getTextDescription := fun k => String.mk ['#', k.textCharacter],
    keyPressEq := fun a b => a = b,
    toLowerCase := fun s => String.mk (s.data.map Char.toLower) }

/-- The message a released key makes `keyStateChanged` send, by object type
(`Key` objects send none). -/
def releaseMessage (juce : Juce) (type : KeyObjectType) (key : KeyPress) : List (List Atom) :=
  match type with
  | KeyObjectType.Key => []
  | KeyObjectType.KeyUp => [[Atom.float (parseKey juce key.getKeyCode "").1]]
  | KeyObjectType.KeyName =>
    [[Atom.float 0, Atom.symbol (parseKey juce key.getKeyCode (keyString juce key)).2]]

/-- The message a key press makes `keyPressed` send, by object type (`KeyUp`
objects send none). -/
def pressMessage (juce : Juce) (type : KeyObjectType) (key : KeyPress) : List (List Atom) :=
  match type with
  | KeyObjectType.Key => [[Atom.float (parseKey juce key.getKeyCode "").1]]
  | KeyObjectType.KeyUp => []
  | KeyObjectType.KeyName =>
    [[Atom.float 1, Atom.symbol (parseKey juce key.getKeyCode (keyString juce key)).2]]

/-! ### `Dialogs/SaveDialog.h` and `PluginEditor.cpp`: the save dialog's result codes -/

/-- The three buttons of `SaveDialog`. -/
inductive SaveDialogButton where
  | cancel | dontsave | save
  deriving DecidableEq, Repr

/-- The button texts: `SaveDialogButton("Cancel")`, `("Don't Save")`, `("Save")`. -/
def SaveDialogButton.text : SaveDialogButton → String
  | SaveDialogButton.cancel => "Cancel"
  | SaveDialogButton.dontsave => "Don't Save"
  | SaveDialogButton.save => "Save"

/-- The argument each button's `onClick` passes to the callback `cb`. -/
def SaveDialogButton.onClick : SaveDialogButton → Int
  | SaveDialogButton.cancel => 0
  | SaveDialogButton.save => 2
  | SaveDialogButton.dontsave => 1

/-- What a handler of `PlugDataPluginEditor` sets going, in order. -/
inductive EditorAction where
  | saveProject
  | launchOpenChooser
  | createFunc
  deriving DecidableEq, Repr

/-- `PlugDataPluginEditor::openProject()`: `changed` is
`getMainCanvas()->changed()`, `result` the code the save dialog passes to the
callback when it is shown. `saveProject(nestedCallback)` saves and then runs
the nested callback. -/
def openProject (changed : Bool) (result : Int) : List EditorAction :=
  if changed then
    if result = 1 then [EditorAction.saveProject, EditorAction.launchOpenChooser]
    else if result ≠ 0 then [EditorAction.launchOpenChooser]
    else []
  else [EditorAction.launchOpenChooser]

/-- The `onClick` handler of the New button (`toolbarButtons[0]`). -/
def newButtonOnClick (changed : Bool) (result : Int) : List EditorAction :=
  if changed then
    if result = 2 then [EditorAction.saveProject, EditorAction.createFunc]
    else if result = 1 then [EditorAction.createFunc]
    else []
  else [EditorAction.createFunc]

/-! ### `Heavy/PdExporter.h`: `PdExporter::performExport` -/

/-- A child process the exporter starts: the code generator through
`start(command)`, or the build through `Toolchain::startShellScript`. -/
inductive Started where
  | process (command : String)
  | shellScript (script : String)
  deriving DecidableEq, Repr

/-- What `performExport` reads besides its arguments: the path of the heavy
executable, the platform's build script (it runs `make -j4`), the values of
`exportTypeValue` and `copyToPath`, the flag `shouldQuit` at its two checks and
the exit codes `getExitCode()` reports after the generator and after the
build. -/
structure ExportRun where
  heavyExecutable : String
  buildScript : String
  exportTypeValue : Int
  copyToPath : Bool
  shouldQuitFirst : Bool
  shouldQuitSecond : Bool
  generatorExitCode : Nat
  buildExitCode : Nat
  deriving DecidableEq, Repr

/-- The outcome of `performExport`: the returned `bool`, the processes started
in order, and whether the external was copied to the Externals folder. -/
structure ExportOutcome where
  result : Bool
  started : List Started
  copied : Bool
  deriving DecidableEq, Repr

/-- `String::replaceCharacter('-', '_')`. -/
def replaceDash (s : String) : String :=
  String.mk (s.data.map (fun c => if c = '-' then '_' else c))

/-- `StringArray::joinIntoString(" ")`. -/
def joinIntoString : List String → String
  | [] => ""
  | [a] => a
  | a :: rest => a ++ " " ++ joinIntoString rest

/-- The command line `performExport` builds for the code generator. -/
def exportArgs (heavyExecutable pdPatch outdir name copyright : String)
    (searchPaths : List String) : List String :=
  let args := [heavyExecutable, pdPatch, "-o" ++ outdir]
  let name := replaceDash name
  let args := args ++ ["-n" ++ name]
  let args := if copyright ≠ "" then args ++ ["--copyright", "\"" ++ copyright ++ "\""] else args
  let args := args ++ ["-v", "-gpdext"]
  let paths := searchPaths.foldl (fun paths path => paths ++ " " ++ path) "-p"
  args ++ [paths]

/-- `PdExporter::performExport(pdPatch, outdir, name, copyright, searchPaths)`;
console output and the deletion of intermediate files are left out. -/
def performExport (run : ExportRun) (pdPatch outdir name copyright : String)
    (searchPaths : List String) : ExportOutcome :=
  let args := exportArgs run.heavyExecutable pdPatch outdir name copyright searchPaths
  if run.shouldQuitFirst then ⟨true, [], false⟩
  else
    let started := [Started.process (joinIntoString args)]
    if run.shouldQuitSecond then ⟨true, started, false⟩
    else
      let generationExitCode : Bool := decide (run.generatorExitCode ≠ 0)
      if !generationExitCode && decide (run.exportTypeValue = 2) then
        let started := started ++ [Started.shellScript run.buildScript]
        let copied := run.copyToPath
        let compilationExitCode : Bool := decide (run.buildExitCode ≠ 0)
        ⟨compilationExitCode, started, copied⟩
      else ⟨generationExitCode, started, false⟩

/-- Whether the build step was started. -/
def ExportOutcome.buildStarted (o : ExportOutcome) : Bool :=
  o.started.any (fun p => match p with
    | Started.shellScript _ => true
    | Started.process _ => false)

/-- An export of type Binary with a clean generator run and a failing build. -/
def sampleRun : ExportRun :=
  { heavyExecutable := "Heavy", buildScript := "make -j4", exportTypeValue := 2,
    copyToPath := false, shouldQuitFirst := false, shouldQuitSecond := false,
    generatorExitCode := 0, buildExitCode := 2 }

/-! ### `GUIObjects.cpp`: `GraphicalArray` -/

/-- `std::round`: to the nearest whole number, halves away from zero. -/
def stdRound (x : ℚ) : Int :=
  if 0 ≤ x then Int.floor (x + 1 / 2) else -Int.floor (-x + 1 / 2)

/-- `juce::jmap(sourceValue, sourceRangeMin, sourceRangeMax, targetRangeMin,
targetRangeMax)`. -/
def jmap (sourceValue sourceRangeMin sourceRangeMax targetRangeMin targetRangeMax : ℚ) : ℚ :=
  targetRangeMin
    + ((targetRangeMax - targetRangeMin) * (sourceValue - sourceRangeMin))
      / (sourceRangeMax - sourceRangeMin)

/-- The `x` and `y` of a `juce::MouseEvent`. -/
structure MouseEvent where
  x : Int
  y : Int
  deriving DecidableEq, Repr

/-- The fields of `GraphicalArray` that the mouse callbacks use: `vec`,
`lastIndex`, `error`, `edited`, the component's width and height, the scale
`array.getScale()` of the Pd array, and the log of the `array.write(index,
value)` calls made by the functions handed to `pd->enqueueFunction` (oldest
first). -/
structure GraphicalArray where
  vec : List ℚ
  lastIndex : Int
  error : Bool
  edited : Bool
  width : Int
  height : Int
  scale : ℚ × ℚ
  written : List (Int × ℚ)
  deriving DecidableEq, Repr

/-- The value `static_cast<float>(vec.size() - 1)`: the subtraction is done in
`size_t`. -/
def sizeMinusOne (vec : List ℚ) : ℚ := (((vec.length + 2 ^ 64 - 1) % 2 ^ 64 : Nat) : ℚ)

/-- The loop `for (int n = interpStart; n <= interpEnd; n++)` of `mouseDrag`
with `count` iterations left, the next one for `n`. -/
def interpLoop (interpStart interpEnd : Int) (min max : ℚ) : Nat → Int → List ℚ → List ℚ
  | 0, _, vec => vec
  | count + 1, n, vec =>
    interpLoop interpStart interpEnd min max count (n + 1)
      (vec.set n.toNat (jmap n interpStart (interpEnd + 1) min max))

/-- The loop of the enqueued function, `for (int n = 0; n < changed.size(); n++)
array.write(interpStart + n, changed[n])`, entered at `n` with the elements of
`changed` from there on. -/
def writeLoop (interpStart : Int) : Nat → List ℚ → List (Int × ℚ) → List (Int × ℚ)
  | _, [], written => written
  | n, v :: rest, written => writeLoop interpStart (n + 1) rest (written ++ [(interpStart + n, v)])

/-- `GraphicalArray::mouseDrag(e)`; the enqueued function is run (the array is
valid, `array.write` does not throw). -/
def GraphicalArray.mouseDrag (g : GraphicalArray) (e : MouseEvent) : GraphicalArray :=
  if g.error then g
  else
    let s := sizeMinusOne g.vec
    let w : ℚ := g.width
    let h : ℚ := g.height
    let x : ℚ := e.x
    let y : ℚ := e.y
    let scale := g.scale
    let index : Int := stdRound (stdClamp (x / w) 0 1 * s)
    let start := g.vec.getD g.lastIndex.toNat 0
    let current := (1 - stdClamp (y / h) 0 1) * (scale.2 - scale.1) + scale.1
    let interpStart := Min.min index g.lastIndex
    let interpEnd := Max.max index g.lastIndex
    let min := if index = interpStart then current else start
    let max := if index = interpStart then start else current
    let vec := interpLoop interpStart interpEnd min max (interpEnd + 1 - interpStart).toNat
      interpStart g.vec
    let changed := (vec.drop interpStart.toNat).take (interpEnd.toNat - interpStart.toNat)
    let written := writeLoop interpStart 0 changed g.written
    { g with vec := vec, written := written, lastIndex := index }

/-- `GraphicalArray::mouseDown(e)`. -/
def GraphicalArray.mouseDown (g : GraphicalArray) (e : MouseEvent) : GraphicalArray :=
  if g.error then g
  else
    let g := { g with edited := true }
    let s := sizeMinusOne g.vec
    let w : ℚ := g.width
    let x : ℚ := e.x
    let g := { g with lastIndex := stdRound (stdClamp (x / w) 0 1 * s) }
    g.mouseDrag e

/-- A graph 100 by 100 pixels over an array of five zeros with scale
`[-1, 1]`. -/
def sampleGraph : GraphicalArray :=
  { vec := [0, 0, 0, 0, 0], lastIndex := 0, error := false, edited := false,
    width := 100, height := 100, scale := (-1, 1), written := [] }

/-! ### `GUIObjects.cpp`: `GraphicalArray::mouseDrag`, its locals -/

/-- The local `index` of `mouseDrag`: the array index under the mouse. -/
def GraphicalArray.index (g : GraphicalArray) (e : MouseEvent) : Int :=
  stdRound (stdClamp ((e.x : ℚ) / (g.width : ℚ)) 0 1 * sizeMinusOne g.vec)

/-- The local `current` of `mouseDrag`: the value at the height of the mouse. -/
def GraphicalArray.current (g : GraphicalArray) (e : MouseEvent) : ℚ :=
  (1 - stdClamp ((e.y : ℚ) / (g.height : ℚ)) 0 1) * (g.scale.2 - g.scale.1) + g.scale.1

/-- The local `start` of `mouseDrag`: `vec[lastIndex]` before the drag. -/
def GraphicalArray.start (g : GraphicalArray) : ℚ :=
  g.vec.getD g.lastIndex.toNat 0

/-! ### `GUIObjects.cpp`: `GUIComponent::closeOpenedSubpatchers` -/

/-- A `Canvas` as the function sees it: the identity of the object and the
`pd::Patch` it shows, both by the pointer they are compared by. -/
structure Canvas where
  id : Nat
  patch : Nat
  deriving DecidableEq, Repr

/-- The members of the editor (`box->cnv->main`) that the function uses: the
tabs of `tabbar` in order, each with the canvas `main.getCanvas(n)` finds for it
(`none` when its content is no viewport on a canvas), `pd.patches`, `canvases`,
and the visibility and depth of the tab bar. -/
structure MainEditor where
  tabs : List (Option Canvas)
  patches : List Nat
  canvases : List Canvas
  tabBarVisible : Bool
  tabBarDepth : Nat
  deriving DecidableEq, Repr

/-- `tabbar->getNumTabs()`. -/
def MainEditor.getNumTabs (main : MainEditor) : Nat := main.tabs.length

/-- `main.getCanvas(n)`; `none` is `nullptr`. -/
def MainEditor.getCanvas (main : MainEditor) (n : Nat) : Option Canvas :=
  (main.tabs.getD n none)

/-- The body of the loop of `closeOpenedSubpatchers` for tab `n`; `patch` is
`*getPatch()`. -/
def closeStep (patch : Nat) (main : MainEditor) (n : Nat) : MainEditor :=
  match main.getCanvas n with
  | some cnv =>
    if cnv.patch = patch then
      { main with tabs := main.tabs.eraseIdx n,
                  patches := main.patches.erase cnv.patch,
                  canvases := main.canvases.erase cnv }
    else main
  | none => main

/-- The loop `for (int n = 0; n < tabbar->getNumTabs(); n++)` entered at `n`,
for at most `fuel` iterations. -/
def closeLoop (patch : Nat) : Nat → Nat → MainEditor → MainEditor
  | 0, _, main => main
  | fuel + 1, n, main =>
    if n < main.getNumTabs then closeLoop patch fuel (n + 1) (closeStep patch main n)
    else main

/-- `GUIComponent::closeOpenedSubpatchers()` on the editor `main`, for a
component whose `getPatch()` is `patch`. `tabbar` is the address of a member
and never null. The loop takes at most one iteration per tab open at the
start. -/
def closeOpenedSubpatchers (patch : Nat) (main : MainEditor) : MainEditor :=
  let main := closeLoop patch main.getNumTabs 0 main
  if 1 < main.getNumTabs then { main with tabBarVisible := true, tabBarDepth := 30 }
  else { main with tabBarVisible := false, tabBarDepth := 1 }

/-- Whether a tab shows the given patch. -/
def showsPatch (patch : Nat) (tab : Option Canvas) : Bool :=
  match tab with
  | some cnv => cnv.patch = patch
  | none => false

/-- An editor with the main patch 0 in the first tab and the subpatch 7 open
in the two tabs after it. -/
def sampleEditor : MainEditor :=
  { tabs := [some ⟨0, 0⟩, some ⟨1, 7⟩, some ⟨2, 7⟩],
    patches := [0, 7, 7],
    canvases := [⟨0, 0⟩, ⟨1, 7⟩, ⟨2, 7⟩],
    tabBarVisible := true, tabBarDepth := 30 }

/-- The tabs the loop of `closeOpenedSubpatchers` leaves open, of the tabs it
has yet to visit: a tab showing the patch is removed, and the tab after a
removed one moves into its place and is not looked at. -/
def keptTabs (patch : Nat) : List (Option Canvas) → List (Option Canvas)
  | [] => []
  | [t] => if showsPatch patch t then [] else [t]
  | t :: u :: rest =>
    if showsPatch patch t then u :: keptTabs patch rest
    else t :: keptTabs patch (u :: rest)

/-! ## Part II: theorems -/

/-! ### C1 -/

/-- C1 (counterexample): `createGui` is not one-to-one on classes: the distinct
types `HorizontalSlider` and `VerticalSlider` both yield a component, and both
components are of class `SliderComponent`. -/
theorem createGui_not_injective_on_classes :
    PdType.HorizontalSlider ≠ PdType.VerticalSlider ∧
    (createGui "hsl" (some (PdObject.gui PdType.HorizontalSlider)) true).map CreatedGui.cls
      = some ComponentClass.SliderComponent ∧
    (createGui "vsl" (some (PdObject.gui PdType.VerticalSlider)) true).map CreatedGui.cls
      = some ComponentClass.SliderComponent := by
  decide

/-- C1 (amended): `createGui` returns `nullptr` when the box has no pd object,
when the object is not a `pd::Gui`, and, for a `pd::Gui`, exactly when its type
is none of the handled ones; for two distinct handled types the two components
have the same class exactly when the types are one of the pairs
horizontal/vertical slider, horizontal/vertical radio, message/atom symbol,
number/atom number, and the slider and radio pairs still differ in the
orientation flag passed to the constructor. -/
theorem createGui_classes (name₁ name₂ : String) (n₁ n₂ : Bool) (t₁ t₂ : PdType)
    (c₁ c₂ : CreatedGui) (hne : t₁ ≠ t₂)
    (h₁ : createGui name₁ (some (PdObject.gui t₁)) n₁ = some c₁)
    (h₂ : createGui name₂ (some (PdObject.gui t₂)) n₂ = some c₂) :
    createGui name₁ none n₁ = none ∧
    createGui name₁ (some PdObject.object) n₁ = none ∧
    (∀ t : PdType, createGui name₁ (some (PdObject.gui t)) n₁ = none ↔ t = PdType.Undefined) ∧
    t₁ ≠ PdType.Undefined ∧ t₂ ≠ PdType.Undefined ∧
    c₁.guiType = t₁ ∧ c₂.guiType = t₂ ∧
    (c₁.cls = c₂.cls ↔ sharedClassPair t₁ t₂ = true) ∧
    (c₁.cls = c₂.cls → c₁.vertical = c₂.vertical →
      (t₁, t₂) ∈ [(PdType.Message, PdType.AtomSymbol), (PdType.AtomSymbol, PdType.Message),
                  (PdType.Number, PdType.AtomNumber), (PdType.AtomNumber, PdType.Number)]) := by
  refine ⟨rfl, rfl, ?_, ?_⟩
  · intro t
    cases t <;> simp [createGui]
  · cases t₁ <;> cases t₂ <;> simp [createGui] at h₁ h₂ hne <;>
      subst h₁ <;> subst h₂ <;> simp [sharedClassPair]

/-- C1 (witness): the amended statement at `Bang` and `Toggle`. -/
theorem createGui_classes_witness :
    createGui "bng" none true = none ∧
    createGui "bng" (some PdObject.object) true = none ∧
    (∀ t : PdType, createGui "bng" (some (PdObject.gui t)) true = none ↔
      t = PdType.Undefined) ∧
    PdType.Bang ≠ PdType.Undefined ∧ PdType.Toggle ≠ PdType.Undefined ∧
    (⟨ComponentClass.BangComponent, none, PdType.Bang, true⟩ : CreatedGui).guiType
      = PdType.Bang ∧
    (⟨ComponentClass.ToggleComponent, none, PdType.Toggle, false⟩ : CreatedGui).guiType
      = PdType.Toggle ∧
    ((⟨ComponentClass.BangComponent, none, PdType.Bang, true⟩ : CreatedGui).cls
        = (⟨ComponentClass.ToggleComponent, none, PdType.Toggle, false⟩ : CreatedGui).cls ↔
      sharedClassPair PdType.Bang PdType.Toggle = true) ∧
    ((⟨ComponentClass.BangComponent, none, PdType.Bang, true⟩ : CreatedGui).cls
        = (⟨ComponentClass.ToggleComponent, none, PdType.Toggle, false⟩ : CreatedGui).cls →
      (⟨ComponentClass.BangComponent, none, PdType.Bang, true⟩ : CreatedGui).vertical
        = (⟨ComponentClass.ToggleComponent, none, PdType.Toggle, false⟩ : CreatedGui).vertical →
      (PdType.Bang, PdType.Toggle) ∈
        [(PdType.Message, PdType.AtomSymbol), (PdType.AtomSymbol, PdType.Message),
         (PdType.Number, PdType.AtomNumber), (PdType.AtomNumber, PdType.Number)]) :=
  createGui_classes "bng" "tgl" true false PdType.Bang PdType.Toggle _ _ (by decide) rfl rfl

/-! ### C2 -/

/-- C2: after `setValueOriginal v` the component's value lies between the
smaller and the larger of the two bounds, equals `v` when `v` already lies
there, and is the value appended to the log of `gui.setValue` arguments, for
both orderings of `min` and `max`. -/
theorem setValueOriginal_clamps (c : GUIComponent) (v : ℚ) :
    Min.min c.min c.max ≤ (c.setValueOriginal v).getValueOriginal ∧
    (c.setValueOriginal v).getValueOriginal ≤ Max.max c.min c.max ∧
    ((Min.min c.min c.max ≤ v ∧ v ≤ Max.max c.min c.max) →
      (c.setValueOriginal v).getValueOriginal = v) ∧
    (c.setValueOriginal v).guiSetValue
      = c.guiSetValue ++ [(c.setValueOriginal v).getValueOriginal] ∧
    (c.setValueOriginal v).min = c.min ∧ (c.setValueOriginal v).max = c.max := by
  simp only [GUIComponent.setValueOriginal, GUIComponent.getValueOriginal, stdMin, stdMax,
    min_def, max_def]
  refine ⟨?_, ?_, ?_, trivial, trivial, trivial⟩
  · split_ifs <;> linarith
  · split_ifs <;> linarith
  · rintro ⟨h1, h2⟩
    split_ifs at h1 h2 ⊢ <;> first | rfl | linarith

/-! ### Lemmas on `PlugDataParameter` and the XML state -/

theorem digitChar_value (k : Nat) (h : k < 10) : (Nat.digitChar k).toNat - 48 = k := by
  interval_cases k <;> rfl

theorem toDigitsCore_value (fuel : Nat) : ∀ (n : Nat) (ds : List Char), n < fuel →
    List.foldl (fun a c => 10 * a + (Char.toNat c - 48)) 0 (Nat.toDigitsCore 10 fuel n ds)
      = List.foldl (fun a c => 10 * a + (Char.toNat c - 48)) n ds := by
  induction fuel with
  | zero => intro n ds h; omega
  | succ fuel ih =>
    intro n ds h
    simp only [Nat.toDigitsCore]
    split_ifs with h0
    · have hn : n < 10 := by omega
      simp only [List.foldl_cons, Nat.mul_zero, Nat.zero_add]
      rw [digitChar_value _ (Nat.mod_lt _ (by decide)), Nat.mod_eq_of_lt hn]
    · rw [ih (n / 10) _ (by omega)]
      simp only [List.foldl_cons]
      rw [digitChar_value _ (Nat.mod_lt _ (by decide)), Nat.div_add_mod]

theorem natToString_injective (i j : Nat) (h : toString i = toString j) : i = j := by
  have hi := toDigitsCore_value (i + 1) i [] (by omega)
  have hj := toDigitsCore_value (j + 1) j [] (by omega)
  have hd : Nat.toDigits 10 i = Nat.toDigits 10 j := by
    have := congrArg String.data h
    simpa [toString, Nat.repr, List.asString] using this
  simp only [Nat.toDigits] at hd
  rw [hd] at hi
  simpa using hi.symm.trans hj

theorem paramId_injective (i j : Nat) (h : "param" ++ toString i = "param" ++ toString j) :
    i = j := by
  apply natToString_injective
  have := congrArg String.data h
  simp only [String.data_append, List.append_cancel_left_eq] at this
  exact String.ext this

theorem volume_ne_paramId (i : Nat) : ¬ ("volume" = "param" ++ toString i) := by
  intro h
  have := congrArg String.data h
  simp [String.data_append] at this

section ParameterLemmas

variable {K : Type} [LinearOrderedField K] [FloorRing K]

theorem clampTo0To1_of_mem (p : K) (h0 : 0 ≤ p) (h1 : p ≤ 1) : clampTo0To1 p = p := by
  simp only [clampTo0To1, jlimit]
  rw [if_neg (not_lt.mpr h0), if_neg (not_lt.mpr h1)]

theorem convert_roundtrip (fns : MathFns K) (r : NormalisableRange K) (v : K)
    (hround : ∀ x, fns.round x = x)
    (hr : r.start < r.end_) (hv1 : r.start ≤ v) (hv2 : v ≤ r.end_)
    (hex : r.skew ≠ 1 → ExactSkew fns r.skew) :
    r.convertFrom0to1 fns (r.convertTo0to1 fns v) = v := by
  have hd : 0 < r.end_ - r.start := by linarith
  have hp0 : 0 ≤ (v - r.start) / (r.end_ - r.start) := div_nonneg (by linarith) hd.le
  have hp1 : (v - r.start) / (r.end_ - r.start) ≤ 1 := by
    rw [div_le_one hd]; linarith
  have hback : r.start + (r.end_ - r.start) * ((v - r.start) / (r.end_ - r.start)) = v := by
    field_simp
  simp only [NormalisableRange.convertTo0to1, NormalisableRange.convertFrom0to1, hround]
  rw [clampTo0To1_of_mem _ hp0 hp1]
  by_cases hs : r.skew = 1
  · simp only [hs, if_true, ne_eq, not_true_eq_false, false_and, if_false]
    rw [clampTo0To1_of_mem _ hp0 hp1]
    exact hback
  · obtain ⟨hz, hpos⟩ := hex hs
    simp only [hs, if_false, ne_eq, not_false_eq_true, true_and]
    rcases hp0.eq_or_lt with h0 | h0
    · rw [← h0, hz, clampTo0To1_of_mem _ le_rfl zero_le_one, if_neg (lt_irrefl _)]
      rw [← h0] at hback
      exact hback
    · obtain ⟨hq0, hq1, hq⟩ := hpos _ h0 hp1
      rw [clampTo0To1_of_mem _ hq0.le hq1, if_pos hq0, hq]
      exact hback

theorem saveLoop_children (fns : MathFns K) : ∀ (ps : List (PlugDataParameter K)) (i : Nat)
    (xml : XmlElement K),
    (saveLoop fns i ps xml).children
      = xml.children ++ (List.enumFrom i ps).map (fun ip => paramXml fns ip.1 ip.2) := by
  intro ps
  induction ps with
  | nil => intro i xml; simp [saveLoop]
  | cons p ps ih =>
    intro i xml
    simp only [saveLoop]
    rw [ih]
    cases xml with
    | mk t a c => simp [XmlElement.addChildElement, XmlElement.children, List.enumFrom_cons]

theorem compareAttribute_paramXml (js : JuceString K) (fns : MathFns K) (i : Nat)
    (p : PlugDataParameter K) (v : String) :
    (paramXml fns i p).compareAttribute js "id" v = decide ("param" ++ toString i = v) := by
  simp [paramXml, XmlElement.compareAttribute, XmlElement.getAttribute, XmlElement.setAttribute,
    XmlElement.new, XmlElement.attributes, XmlElement.tagName, XmlElement.children,
    setAttributeIn, XmlValue.toText]

theorem find_paramXml (js : JuceString K) (fns : MathFns K) :
    ∀ (ps : List (PlugDataParameter K)) (s k : Nat) (p : PlugDataParameter K),
    ps[k]? = some p →
    List.find? (fun c => c.compareAttribute js "id" ("param" ++ toString (s + k)))
        ((List.enumFrom s ps).map (fun ip => paramXml fns ip.1 ip.2))
      = some (paramXml fns (s + k) p) := by
  intro ps
  induction ps with
  | nil => intro s k p h; simp at h
  | cons q ps ih =>
    intro s k p h
    cases k with
    | zero =>
      simp only [List.getElem?_cons_zero, Option.some.injEq] at h
      subst h
      simp [List.enumFrom_cons, compareAttribute_paramXml]
    | succ k =>
      simp only [List.getElem?_cons_succ] at h
      have hne : ¬ ("param" ++ toString s = "param" ++ toString (s + (k + 1))) := by
        intro he
        have := paramId_injective _ _ he
        omega
      simp only [List.enumFrom_cons, List.map_cons, List.find?_cons, compareAttribute_paramXml,
        hne, decide_False]
      have := ih (s + 1) k p h
      rw [show s + 1 + k = s + (k + 1) by omega] at this
      exact this

theorem loadLoop_length (js : JuceString K) (fns : MathFns K) (uninit : Nat → Mode)
    (xml : XmlElement K) : ∀ (ps : List (PlugDataParameter K)) (s : Nat),
    (loadLoop js fns uninit xml s ps).length = ps.length := by
  intro ps
  induction ps with
  | nil => intro s; rfl
  | cons p ps ih => intro s; simp [loadLoop, ih]

theorem loadLoop_getElem (js : JuceString K) (fns : MathFns K) (uninit : Nat → Mode)
    (xml : XmlElement K) : ∀ (ps : List (PlugDataParameter K)) (s k : Nat)
    (p : PlugDataParameter K), ps[k]? = some p →
    (loadLoop js fns uninit xml s ps)[k]?
      = some (match xml.getChildByAttribute js "id" ("param" ++ toString (s + k)) with
          | none => p
          | some xmlParam => loadParam js fns (uninit (s + k)) (s + k) xmlParam p) := by
  intro ps
  induction ps with
  | nil => intro s k p h; simp at h
  | cons q ps ih =>
    intro s k p h
    cases k with
    | zero =>
      simp only [List.getElem?_cons_zero, Option.some.injEq] at h
      subst h
      simp [loadLoop]
    | succ k =>
      simp only [List.getElem?_cons_succ] at h
      have := ih (s + 1) k p h
      rw [show s + 1 + k = s + (k + 1) by omega] at this
      simpa [loadLoop] using this

end ParameterLemmas

section ParameterLemmas2

variable {K : Type} [LinearOrderedField K] [FloorRing K]

theorem loadParam_paramXml_eq (js : JuceString K) (fns : MathFns K) (g : Mode) (i : Nat)
    (p : PlugDataParameter K) :
    loadParam js fns g i (paramXml fns i p) p
      = (({ p with value := p.range.convertFrom0to1 fns (p.getValue fns) } :
            PlugDataParameter K)).setMode fns p.mode := by
  obtain ⟨lv, gs, dv, idx, v, ⟨a, b, c, d⟩, nm, en, md⟩ := p
  cases en <;>
  simp [loadParam, paramXml, XmlElement.hasAttribute, XmlElement.getDoubleAttribute,
    XmlElement.getIntAttribute, XmlElement.getStringAttribute, XmlElement.getAttribute,
    XmlElement.setAttribute, XmlElement.new, XmlElement.attributes, XmlElement.tagName,
    XmlElement.children, setAttributeIn, XmlValue.toText, XmlValue.toDouble, XmlValue.toInt,
    PlugDataParameter.setEnabled, PlugDataParameter.setRange, PlugDataParameter.setName,
    PlugDataParameter.setValueNotifyingHost, PlugDataParameter.setValue,
    PlugDataParameter.setIndex, PlugDataParameter.getTitle, PlugDataParameter.getValue]

theorem setMode_fields (fns : MathFns K) (p : PlugDataParameter K) (m : Mode)
    (hm : m ≠ Mode.Integer) :
    (p.setMode fns m).name = p.name ∧ (p.setMode fns m).range.start = p.range.start ∧
    (p.setMode fns m).range.end_ = p.range.end_ ∧ (p.setMode fns m).enabled = p.enabled ∧
    (p.setMode fns m).index = p.index ∧ (p.setMode fns m).mode = m ∧
    (p.setMode fns m).value = p.value := by
  simp only [PlugDataParameter.setMode, PlugDataParameter.setInterval]
  split_ifs <;> simp_all

theorem setMode_integer_fields (fns : MathFns K) (p : PlugDataParameter K) :
    (p.setMode fns Mode.Integer).name = p.name ∧
    (p.setMode fns Mode.Integer).range.start = (Int.floor p.range.start : K) ∧
    (p.setMode fns Mode.Integer).range.end_ = (Int.floor p.range.end_ : K) ∧
    (p.setMode fns Mode.Integer).enabled = p.enabled ∧
    (p.setMode fns Mode.Integer).index = p.index ∧
    (p.setMode fns Mode.Integer).mode = Mode.Integer := by
  simp [PlugDataParameter.setMode, PlugDataParameter.setInterval, PlugDataParameter.setValue,
    PlugDataParameter.setRange]

end ParameterLemmas2

/-! ### Binary32 rounding at the values of the concrete inputs -/

/-- Rounding a positive fraction in lowest terms is `roundNat` of its numerator
and denominator. -/
theorem roundToFloat_div (N D : Nat) (hN : 0 < N) (hD : 0 < D) (h : Nat.Coprime N D) :
    roundToFloat ((N : ℚ) / (D : ℚ)) = ((roundNat N D).1 : ℚ) / ((roundNat N D).2 : ℚ) := by
  have hD0 : (0 : ℤ) < (D : ℤ) := by exact_mod_cast hD
  have hc : Nat.Coprime (N : ℤ).natAbs (D : ℤ).natAbs := by simpa using h
  have hnum : ((N : ℚ) / (D : ℚ)).num = (N : ℤ) := by
    have := @Rat.num_div_eq_of_coprime (N : ℤ) (D : ℤ) hD0 hc
    simpa using this
  have hden : ((N : ℚ) / (D : ℚ)).den = D := by
    have := @Rat.den_div_eq_of_coprime (N : ℤ) (D : ℤ) hD0 hc
    have h2 : (((N : ℚ) / (D : ℚ)).den : ℤ) = (D : ℤ) := by simpa using this
    exact_mod_cast h2
  have h0 : ¬ ((N : ℤ) = 0) := by omega
  have h1 : ¬ ((N : ℤ) < 0) := by omega
  simp only [roundToFloat, hnum, hden, h0, h1, if_false, Int.natAbs_ofNat]

/-- The float `0.8f` is 13421773 / 2 ^ 24 (`0x1.99999ap-1`). -/
theorem roundToFloat_eight_tenths : roundToFloat (8 / 10) = 13421773 / 16777216 := by
  rw [show (8 / 10 : ℚ) = ((4 : ℕ) : ℚ) / ((5 : ℕ) : ℚ) by norm_num]
  rw [roundToFloat_div _ _ (by decide) (by decide) (by norm_num)]
  rw [show roundNat 4 5 = (13421773, 16777216) by decide]
  norm_num

theorem roundToFloat_near_eight_tenths :
    roundToFloat (13421773 / 16777216) = 13421773 / 16777216 := by
  rw [show (13421773 / 16777216 : ℚ) = ((13421773 : ℕ) : ℚ) / ((16777216 : ℕ) : ℚ) by norm_num]
  rw [roundToFloat_div _ _ (by decide) (by decide) (by norm_num)]
  rw [show roundNat 13421773 16777216 = (13421773, 16777216) by decide]

theorem roundToFloat_ten : roundToFloat 10 = 10 := by
  with_unfolding_all decide

/-- The float division `0.8f / 10.0f` gives 5368709 / 2 ^ 26 (`0x1.47ae14p-4`): the
exact quotient is 10737418.4 / 2 ^ 27, rounded down. -/
theorem roundToFloat_tenth_of_near_eight_tenths :
    roundToFloat (13421773 / 16777216 / 10) = 5368709 / 67108864 := by
  rw [show (13421773 / 16777216 / 10 : ℚ) = ((13421773 : ℕ) : ℚ) / ((167772160 : ℕ) : ℚ)
    by norm_num]
  rw [roundToFloat_div _ _ (by decide) (by decide) (by norm_num)]
  rw [show roundNat 13421773 167772160 = (5368709, 67108864) by decide]
  norm_num

/-- The float product `10.0f * 0x1.47ae14p-4` gives 13421772 / 2 ^ 24
(`0x1.999998p-1`): the exact product is 13421772.5 / 2 ^ 24, a tie, rounded to
the even 13421772. -/
theorem roundToFloat_ten_times :
    roundToFloat (10 * (5368709 / 67108864)) = 13421772 / 16777216 := by
  rw [show (10 * (5368709 / 67108864) : ℚ) = ((26843545 : ℕ) : ℚ) / ((33554432 : ℕ) : ℚ)
    by norm_num]
  rw [roundToFloat_div _ _ (by decide) (by decide) (by norm_num)]
  rw [show roundNat 26843545 33554432 = (3355443, 4194304) by decide]
  norm_num

theorem roundToFloat_below_eight_tenths :
    roundToFloat (13421772 / 16777216) = 13421772 / 16777216 := by
  rw [show (13421772 / 16777216 : ℚ) = ((3355443 : ℕ) : ℚ) / ((4194304 : ℕ) : ℚ) by norm_num]
  rw [roundToFloat_div _ _ (by decide) (by decide) (by norm_num)]
  rw [show roundNat 3355443 4194304 = (3355443, 4194304) by decide]

/-- In binary32 arithmetic the two conversions of the range `[0, 10]` take the
float `0.8f` to the float below it. -/
theorem tenths_convert :
    (⟨0, 10, 1 / 1000000, 1⟩ : NormalisableRange ℚ).convertFrom0to1 floatFns
        ((⟨0, 10, 1 / 1000000, 1⟩ : NormalisableRange ℚ).convertTo0to1 floatFns
          (13421773 / 16777216))
      = 13421772 / 16777216 := by
  have hc : clampTo0To1 (5368709 / 67108864 : ℚ) = 5368709 / 67108864 :=
    clampTo0To1_of_mem _ (by norm_num) (by norm_num)
  simp only [NormalisableRange.convertTo0to1, NormalisableRange.convertFrom0to1, floatFns,
    sub_zero, zero_add, roundToFloat_near_eight_tenths, roundToFloat_ten,
    roundToFloat_tenth_of_near_eight_tenths, hc, if_true, ne_eq, not_true_eq_false, false_and,
    if_false, roundToFloat_ten_times, roundToFloat_below_eight_tenths]

/-! ### C3 -/

theorem exactSkew_real (s : ℝ) (hs : 0 < s) :
    ExactSkew (⟨fun p q => Real.rpow p q, Real.exp, Real.log, fun x => x⟩ : MathFns ℝ) s := by
  refine ⟨?_, ?_⟩
  · exact Real.zero_rpow hs.ne'
  · intro p hp0 hp1
    refine ⟨Real.rpow_pos_of_pos hp0 s, Real.rpow_le_one hp0.le hp1 hs.le, ?_⟩
    show Real.exp (Real.log (p ^ s) / s) = p
    rw [Real.log_rpow hp0, mul_div_cancel_left₀ _ hs.ne', Real.exp_log hp0]

section SavedState

variable {K : Type} [LinearOrderedField K] [FloorRing K]

theorem saveStateInformation_children (fns : MathFns K) (xml : XmlElement K) (vol : K)
    (ps : List (PlugDataParameter K)) :
    (saveStateInformation fns xml ⟨vol, ps⟩).children
      = xml.children ++ XmlElement.mk "PARAM"
          [("id", XmlValue.text "volume"), ("value", XmlValue.number vol)] []
        :: (List.enumFrom 1 ps).map (fun ip => paramXml fns ip.1 ip.2) := by
  simp only [saveStateInformation]
  rw [saveLoop_children]
  cases xml with
  | mk t a c =>
    simp [XmlElement.addChildElement, XmlElement.children, XmlElement.setAttribute,
      XmlElement.new, XmlElement.attributes, XmlElement.tagName, setAttributeIn]

theorem loadSaved_volume (js : JuceString K) (fns : MathFns K) (uninit : Nat → Mode)
    (xml : XmlElement K) (parameters : ParameterArray K)
    (hxml : ∀ v, xml.getChildByAttribute js "id" v = none) :
    (loadStateInformation js fns uninit (saveStateInformation fns xml parameters)
        parameters).volume = parameters.volume := by
  obtain ⟨vol, ps⟩ := parameters
  have hfind0 : ∀ v, List.find? (fun c => XmlElement.compareAttribute js c "id" v) xml.children
      = none := hxml
  simp only [loadStateInformation, XmlElement.getChildByAttribute,
    saveStateInformation_children, List.find?_append, hfind0]
  simp [XmlElement.compareAttribute, XmlElement.getAttribute, XmlElement.attributes,
    XmlValue.toText, XmlElement.getDoubleAttribute, XmlValue.toDouble]

theorem loadSaved_length (js : JuceString K) (fns : MathFns K) (uninit : Nat → Mode)
    (xml : XmlElement K) (parameters : ParameterArray K) :
    (loadStateInformation js fns uninit xml parameters).params.length
      = parameters.params.length := by
  simp only [loadStateInformation]
  exact loadLoop_length _ _ _ _ _ _

theorem loadSaved_getElem (js : JuceString K) (fns : MathFns K) (uninit : Nat → Mode)
    (xml : XmlElement K) (parameters : ParameterArray K)
    (hxml : ∀ v, xml.getChildByAttribute js "id" v = none)
    (k : Nat) (p : PlugDataParameter K) (hp : parameters.params[k]? = some p) :
    (loadStateInformation js fns uninit (saveStateInformation fns xml parameters)
        parameters).params[k]?
      = some ((({ p with value := p.range.convertFrom0to1 fns (p.getValue fns) } :
            PlugDataParameter K)).setMode fns p.mode) := by
  obtain ⟨vol, ps⟩ := parameters
  have hfind0 : ∀ v, List.find? (fun c => XmlElement.compareAttribute js c "id" v) xml.children
      = none := hxml
  have hfound : (saveStateInformation fns xml ⟨vol, ps⟩).getChildByAttribute js "id"
      ("param" ++ toString (1 + k)) = some (paramXml fns (1 + k) p) := by
    simp only [XmlElement.getChildByAttribute, saveStateInformation_children, List.find?_append,
      hfind0, Option.none_or, List.find?_cons]
    have hv : XmlElement.compareAttribute js (XmlElement.mk "PARAM"
        [("id", XmlValue.text "volume"), ("value", XmlValue.number vol)] [])
        "id" ("param" ++ toString (1 + k)) = false := by
      simp [XmlElement.compareAttribute, XmlElement.getAttribute, XmlElement.attributes,
        XmlValue.toText, volume_ne_paramId]
    rw [hv]
    exact find_paramXml js fns ps 1 k p hp
  simp only [loadStateInformation]
  rw [loadLoop_getElem js fns uninit _ ps 1 k p hp, hfound]
  simp only [loadParam_paramXml_eq]

theorem loadSaved_params (js : JuceString K) (fns : MathFns K) (uninit : Nat → Mode)
    (xml : XmlElement K) (parameters : ParameterArray K)
    (hxml : ∀ v, xml.getChildByAttribute js "id" v = none) :
    (loadStateInformation js fns uninit (saveStateInformation fns xml parameters)
        parameters).params
      = parameters.params.map (fun p =>
          (({ p with value := p.range.convertFrom0to1 fns (p.getValue fns) } :
            PlugDataParameter K)).setMode fns p.mode) := by
  apply List.ext_getElem?
  intro k
  cases h : parameters.params[k]? with
  | none =>
    have hlen := loadSaved_length js fns uninit (saveStateInformation fns xml parameters)
      parameters
    rw [List.getElem?_eq_none_iff] at h
    rw [List.getElem?_eq_none (by omega), List.getElem?_eq_none (by simpa using h)]
  | some p =>
    rw [loadSaved_getElem js fns uninit xml parameters hxml k p h, List.getElem?_map, h]
    rfl

end SavedState

set_option maxRecDepth 100000 in
theorem smallParams_reloaded :
    [integerParam, shiftedParam, halvesParam].map (fun p =>
      ((p.mode, p.range.start, p.range.end_, p.getUnscaledValue),
       ((({ p with value := p.range.convertFrom0to1 floatFns (p.getValue floatFns) } :
          PlugDataParameter ℚ)).setMode floatFns p.mode).mode,
       ((({ p with value := p.range.convertFrom0to1 floatFns (p.getValue floatFns) } :
          PlugDataParameter ℚ)).setMode floatFns p.mode).range.start,
       ((({ p with value := p.range.convertFrom0to1 floatFns (p.getValue floatFns) } :
          PlugDataParameter ℚ)).setMode floatFns p.mode).range.end_,
       ((({ p with value := p.range.convertFrom0to1 floatFns (p.getValue floatFns) } :
          PlugDataParameter ℚ)).setMode floatFns p.mode).getUnscaledValue))
    = [((Mode.Integer, 0, 10, 5), Mode.Integer, 0, 10, 0),
       ((Mode.Float, 2, 3, 1 / 2), Mode.Float, 2, 3, 2),
       ((Mode.Integer, 1 / 2, 19 / 2, 1 / 2), Mode.Integer, 0, 9, 0)] := by
  with_unfolding_all decide

theorem tenthsParam_value : tenthsParam.value = 13421773 / 16777216 := by
  show stdClamp (roundToFloat (8 / 10)) 0 10 = 13421773 / 16777216
  rw [roundToFloat_eight_tenths]
  norm_num [stdClamp]

theorem tenthsParam_reloaded :
    ((({ tenthsParam with
          value := tenthsParam.range.convertFrom0to1 floatFns (tenthsParam.getValue floatFns) } :
        PlugDataParameter ℚ)).setMode floatFns tenthsParam.mode).mode = Mode.Float ∧
    ((({ tenthsParam with
          value := tenthsParam.range.convertFrom0to1 floatFns (tenthsParam.getValue floatFns) } :
        PlugDataParameter ℚ)).setMode floatFns tenthsParam.mode).range.start = 0 ∧
    ((({ tenthsParam with
          value := tenthsParam.range.convertFrom0to1 floatFns (tenthsParam.getValue floatFns) } :
        PlugDataParameter ℚ)).setMode floatFns tenthsParam.mode).range.end_ = 10 ∧
    ((({ tenthsParam with
          value := tenthsParam.range.convertFrom0to1 floatFns (tenthsParam.getValue floatFns) } :
        PlugDataParameter ℚ)).setMode floatFns tenthsParam.mode).getUnscaledValue
      = 13421772 / 16777216 := by
  have hr : tenthsParam.range = ⟨0, 10, 1 / 1000000, 1⟩ := rfl
  have hm : tenthsParam.mode = Mode.Float := rfl
  have h := setMode_fields floatFns
    ({ tenthsParam with
        value := tenthsParam.range.convertFrom0to1 floatFns (tenthsParam.getValue floatFns) })
    Mode.Float (by decide)
  rw [hm]
  refine ⟨h.2.2.2.2.2.1, ?_, ?_, ?_⟩
  · rw [h.2.1, hr]
  · rw [h.2.2.1, hr]
  · simp only [PlugDataParameter.getUnscaledValue]
    rw [h.2.2.2.2.2.2]
    simp only [PlugDataParameter.getValue, hr, tenthsParam_value]
    exact tenths_convert

/-- C3 (counterexample): in binary32 arithmetic, saving and loading the array
of `integerParam` (mode `Integer`, range `[0, 10]`, value 5), `shiftedParam`
(mode `Float`, range `[2, 3]`, value 1/2, outside the range), `tenthsParam`
(mode `Float`, range `[0, 10]`, value 13421773 / 2 ^ 24, the float nearest to
0.8, inside the range) and `halvesParam` (mode `Integer`, range
`[1/2, 19/2]`, value 1/2) leaves the unscaled values 0, 2, 13421772 / 2 ^ 24
(the float below the one it was) and 0, and the range `[0, 9]` for the last. -/
theorem save_load_changes_value :
    [integerParam, shiftedParam, tenthsParam, halvesParam].map
        (fun p => (p.mode, p.range.start, p.range.end_, p.getUnscaledValue))
      = [(Mode.Integer, 0, 10, 5), (Mode.Float, 2, 3, 1 / 2),
         (Mode.Float, 0, 10, 13421773 / 16777216), (Mode.Integer, 1 / 2, 19 / 2, 1 / 2)] ∧
    roundToFloat (13421773 / 16777216) = 13421773 / 16777216 ∧
    (loadStateInformation (plainText ℚ) floatFns (fun _ => Mode.Float)
        (saveStateInformation floatFns (XmlElement.new "plugdata_save")
          ⟨1, [integerParam, shiftedParam, tenthsParam, halvesParam]⟩)
        ⟨1, [integerParam, shiftedParam, tenthsParam, halvesParam]⟩).params.map
        (fun p => (p.mode, p.range.start, p.range.end_, p.getUnscaledValue))
      = [(Mode.Integer, 0, 10, 0), (Mode.Float, 2, 3, 2),
         (Mode.Float, 0, 10, 13421772 / 16777216), (Mode.Integer, 0, 9, 0)] := by
  have hs := smallParams_reloaded
  simp only [List.map_cons, List.map_nil, List.cons.injEq, Prod.mk.injEq, and_true] at hs
  obtain ⟨⟨hI, hI'⟩, ⟨hS, hS'⟩, hH, hH'⟩ := hs
  have ht := tenthsParam_reloaded
  have hr : tenthsParam.range = ⟨0, 10, 1 / 1000000, 1⟩ := rfl
  have hm : tenthsParam.mode = Mode.Float := rfl
  refine ⟨?_, roundToFloat_near_eight_tenths, ?_⟩
  · simp only [List.map_cons, List.map_nil, List.cons.injEq, Prod.mk.injEq, and_true]
    refine ⟨hI, hS, ⟨hm, ?_, ?_, tenthsParam_value⟩, hH⟩
    · rw [hr]
    · rw [hr]
  · rw [loadSaved_params (plainText ℚ) floatFns (fun _ => Mode.Float)
      (XmlElement.new "plugdata_save") _ (by intro v; rfl)]
    simp only [List.map_cons, List.map_nil, List.cons.injEq, Prod.mk.injEq, and_true]
    exact ⟨hI', hS', ht, hH'⟩

section RoundTrip

variable {K : Type} [LinearOrderedField K] [FloorRing K]

/-- C3 (amended): let `saveStateInformation` write a parameter array into an
element none of whose children carries an `id`, and let `loadStateInformation`
read that element back into the same array, in any float arithmetic. The
volume parameter is handed back the normalised value it reported. Every
parameter, in every mode, keeps its name, enabled flag, index and mode. In a
mode other than `Integer` it keeps its range start and end, and with
`start < end` and a positive skew its unscaled value comes back as
`convertFrom0to1 (convertTo0to1 value)` of its range; that is the value itself
when moreover the arithmetic is exact (nothing is rounded, and `pow`, `exp`,
`log` are exact for a skew other than 1) and the value lies inside the range.
In `Integer` mode the range start and end come back floored. -/
theorem save_load_roundtrip (js : JuceString K) (fns : MathFns K) (uninit : Nat → Mode)
    (xml : XmlElement K) (parameters : ParameterArray K)
    (hxml : ∀ v, xml.getChildByAttribute js "id" v = none)
    (k : Nat) (p : PlugDataParameter K) (hp : parameters.params[k]? = some p) :
    (loadStateInformation js fns uninit (saveStateInformation fns xml parameters)
        parameters).volume = parameters.volume ∧
    (loadStateInformation js fns uninit (saveStateInformation fns xml parameters)
        parameters).params.length = parameters.params.length ∧
    ∃ p' : PlugDataParameter K,
      (loadStateInformation js fns uninit (saveStateInformation fns xml parameters)
        parameters).params[k]? = some p' ∧
      p'.name = p.name ∧ p'.enabled = p.enabled ∧ p'.index = p.index ∧ p'.mode = p.mode ∧
      (p.mode ≠ Mode.Integer →
        p'.range.start = p.range.start ∧ p'.range.end_ = p.range.end_ ∧
        (p.range.start < p.range.end_ → 0 < p.range.skew →
          p'.getUnscaledValue
            = p.range.convertFrom0to1 fns (p.range.convertTo0to1 fns p.getUnscaledValue)) ∧
        ((∀ x, fns.round x = x) → p.range.start < p.range.end_ →
          p.range.start ≤ p.getUnscaledValue → p.getUnscaledValue ≤ p.range.end_ →
          (p.range.skew ≠ 1 → ExactSkew fns p.range.skew) →
          p'.getUnscaledValue = p.getUnscaledValue)) ∧
      (p.mode = Mode.Integer →
        p'.range.start = (Int.floor p.range.start : K) ∧
        p'.range.end_ = (Int.floor p.range.end_ : K)) := by
  refine ⟨loadSaved_volume js fns uninit xml parameters hxml,
    loadSaved_length js fns uninit _ parameters,
    _, loadSaved_getElem js fns uninit xml parameters hxml k p hp, ?_⟩
  simp only [PlugDataParameter.getUnscaledValue]
  by_cases hm : p.mode = Mode.Integer
  · have := setMode_integer_fields fns
      ({ p with value := p.range.convertFrom0to1 fns (p.getValue fns) })
    rw [hm]
    exact ⟨this.1, this.2.2.2.1, this.2.2.2.2.1, this.2.2.2.2.2,
      fun h => absurd rfl h, fun _ => ⟨this.2.1, this.2.2.1⟩⟩
  · have := setMode_fields fns
      ({ p with value := p.range.convertFrom0to1 fns (p.getValue fns) }) p.mode hm
    refine ⟨this.1, this.2.2.2.1, this.2.2.2.2.1, this.2.2.2.2.2.1, ?_,
      fun h => absurd h hm⟩
    intro _
    refine ⟨this.2.1, this.2.2.1, ?_, ?_⟩
    · intro _ _
      rw [this.2.2.2.2.2.2]
      rfl
    · intro hround hrange hlo hhi hexact
      rw [this.2.2.2.2.2.2]
      exact convert_roundtrip fns p.range p.value hround hrange hlo hhi hexact

end RoundTrip

/-- C3 (witness): the amended round trip over the reals, with exact
arithmetic and `Real.rpow`, `Real.exp` and `Real.log`, for the logarithmic
parameter (skew 4) and the exponential parameter (skew 1/4) of `skewedParams`:
all their listed fields come back. -/
theorem save_load_roundtrip_witness :
    ExactSkew (⟨fun p q => Real.rpow p q, Real.exp, Real.log, fun x => x⟩ : MathFns ℝ) 4 ∧
    (∃ p' : PlugDataParameter ℝ,
      (loadStateInformation (plainText ℝ)
        ⟨fun p q => Real.rpow p q, Real.exp, Real.log, fun x => x⟩
        (fun _ => Mode.Float)
        (saveStateInformation ⟨fun p q => Real.rpow p q, Real.exp, Real.log, fun x => x⟩
          (XmlElement.new "plugdata_save") (skewedParams ℝ))
        (skewedParams ℝ)).params[0]? = some p' ∧
      p'.name = (logParam ℝ).name ∧ p'.enabled = (logParam ℝ).enabled ∧
      p'.index = (logParam ℝ).index ∧ p'.mode = (logParam ℝ).mode ∧
      p'.range.start = (logParam ℝ).range.start ∧
      p'.range.end_ = (logParam ℝ).range.end_ ∧
      p'.getUnscaledValue = (logParam ℝ).getUnscaledValue) ∧
    ∃ p' : PlugDataParameter ℝ,
      (loadStateInformation (plainText ℝ)
        ⟨fun p q => Real.rpow p q, Real.exp, Real.log, fun x => x⟩
        (fun _ => Mode.Float)
        (saveStateInformation ⟨fun p q => Real.rpow p q, Real.exp, Real.log, fun x => x⟩
          (XmlElement.new "plugdata_save") (skewedParams ℝ))
        (skewedParams ℝ)).params[1]? = some p' ∧
      p'.mode = Mode.Exponential ∧ p'.getUnscaledValue = 1 / 3 :=
  ⟨exactSkew_real 4 (by norm_num),
   (save_load_roundtrip (plainText ℝ)
      ⟨fun p q => Real.rpow p q, Real.exp, Real.log, fun x => x⟩
      (fun _ => Mode.Float) (XmlElement.new "plugdata_save") (skewedParams ℝ)
      (by intro v; rfl) 0 (logParam ℝ) rfl).2.2.elim
    fun p' h =>
      ⟨p', h.1, h.2.1, h.2.2.1, h.2.2.2.1, h.2.2.2.2.1,
        (h.2.2.2.2.2.1 (by decide)).1, (h.2.2.2.2.2.1 (by decide)).2.1,
        (h.2.2.2.2.2.1 (by decide)).2.2.2 (fun _ => rfl)
          (by norm_num [logParam]) (by norm_num [logParam, PlugDataParameter.getUnscaledValue])
          (by norm_num [logParam, PlugDataParameter.getUnscaledValue])
          (fun _ => exactSkew_real 4 (by norm_num))⟩,
   (save_load_roundtrip (plainText ℝ)
      ⟨fun p q => Real.rpow p q, Real.exp, Real.log, fun x => x⟩
      (fun _ => Mode.Float) (XmlElement.new "plugdata_save") (skewedParams ℝ)
      (by intro v; rfl) 1 (expParam ℝ) rfl).2.2.elim
    fun p' h =>
      ⟨p', h.1, h.2.2.2.2.1,
        (h.2.2.2.2.2.1 (by decide)).2.2.2 (fun _ => rfl)
          (by norm_num [expParam]) (by norm_num [expParam, PlugDataParameter.getUnscaledValue])
          (by norm_num [expParam, PlugDataParameter.getUnscaledValue])
          (fun _ => exactSkew_real (1 / 4) (by norm_num))⟩⟩

/-! ### C4 -/

section Legacy

variable {K : Type} [LinearOrderedField K] [FloorRing K]

/-- C4: when the element found for `param<i>` (`i ≥ 1`, `parameters[i]`
exists) carries the mode `Float` and none of the attributes `name`, `min`,
`max`, `enabled`, `index`, then after `loadStateInformation` parameter `i` has
the name `param<i>`, the range `[0, 1]`, is enabled and has index `i` (and mode
`Float`). -/
theorem load_legacy_defaults (js : JuceString K) (fns : MathFns K) (uninit : Nat → Mode)
    (xml : XmlElement K) (parameters : ParameterArray K) (i : Nat) (xmlParam : XmlElement K)
    (param : PlugDataParameter K) (hi : 1 ≤ i)
    (hparam : parameters.params[i - 1]? = some param)
    (hxml : xml.getChildByAttribute js "id" ("param" ++ toString i) = some xmlParam)
    (hmode : xmlParam.hasAttribute "mode" = true)
    (hfloat : xmlParam.getIntAttribute js "mode" 0 = Mode.Float)
    (hname : xmlParam.hasAttribute "name" = false)
    (hmin : xmlParam.hasAttribute "min" = false)
    (hmax : xmlParam.hasAttribute "max" = false)
    (henabled : xmlParam.hasAttribute "enabled" = false)
    (hindex : xmlParam.hasAttribute "index" = false) :
    ∃ p', (loadStateInformation js fns uninit xml parameters).params[i - 1]? = some p' ∧
      p'.name = "param" ++ toString i ∧ p'.range.start = 0 ∧ p'.range.end_ = 1 ∧
      p'.enabled = true ∧ p'.index = (i : Int) ∧ p'.mode = Mode.Float := by
  have hget := loadLoop_getElem js fns uninit xml parameters.params 1 (i - 1) param hparam
  rw [show 1 + (i - 1) = i by omega, hxml] at hget
  refine ⟨_, hget, ?_⟩
  simp [loadParam, hmode, hfloat, hname, hmin, hmax, henabled, hindex,
    PlugDataParameter.setMode, PlugDataParameter.setInterval, PlugDataParameter.setIndex,
    PlugDataParameter.setValueNotifyingHost, PlugDataParameter.setValue,
    PlugDataParameter.setName, PlugDataParameter.setRange, PlugDataParameter.setEnabled]

end Legacy

/-- C4 (witness): loading `legacyFloatXml` into an array whose first
parameter is the disabled `shiftedParam`. -/
theorem load_legacy_defaults_witness :
    ∃ p', (loadStateInformation (plainText ℚ) ratFns (fun _ => Mode.Integer) legacyFloatXml
        ⟨1, [shiftedParam.setEnabled false]⟩).params[1 - 1]? = some p' ∧
      p'.name = "param" ++ toString 1 ∧ p'.range.start = 0 ∧ p'.range.end_ = 1 ∧
      p'.enabled = true ∧ p'.index = ((1 : Nat) : Int) ∧ p'.mode = Mode.Float :=
  load_legacy_defaults (plainText ℚ) ratFns (fun _ => Mode.Integer) legacyFloatXml
    ⟨1, [shiftedParam.setEnabled false]⟩ 1
    (XmlElement.mk "PARAM"
      [("id", XmlValue.text "param1"), ("value", XmlValue.number (1 / 2)),
       ("mode", XmlValue.integer 1)] [])
    (shiftedParam.setEnabled false) (by decide) rfl (by with_unfolding_all rfl) (by decide) (by decide)
    (by decide) (by decide) (by decide) (by decide) (by decide)

/-! ### C5 -/

section MissingMode

variable {K : Type} [LinearOrderedField K] [FloorRing K]

theorem setMode_mode (fns : MathFns K) (p : PlugDataParameter K) (m : Mode) :
    (p.setMode fns m).mode = m := by
  simp only [PlugDataParameter.setMode, PlugDataParameter.setInterval,
    PlugDataParameter.setValue, PlugDataParameter.setRange]
  split_ifs <;> rfl

theorem loadParam_mode_of_missing (js : JuceString K) (fns : MathFns K) (g : Mode) (i : Nat)
    (xmlParam : XmlElement K) (p : PlugDataParameter K)
    (h : xmlParam.hasAttribute "mode" = false) :
    (loadParam js fns g i xmlParam p).mode = g := by
  simp only [loadParam, h, setMode_mode]
  rfl

end MissingMode


/-- C5 (the code at the failing input): loading `legacyNoModeXml`, whose
`PARAM` element has no `mode` attribute, into a freshly constructed parameter
leaves the mode at whatever the uninitialised local `mode` held; when that is
`Integer` the range `[1/2, 3/2]` that was just loaded becomes `[0, 1]`. -/
theorem load_without_mode_is_indeterminate :
    (PlugDataParameter.new ratFns "param1" 0 true 1 0 1).mode = Mode.Float ∧
    (∀ g : Mode, (loadStateInformation (plainText ℚ) ratFns (fun _ => g) legacyNoModeXml
        ⟨1, [PlugDataParameter.new ratFns "param1" 0 true 1 0 1]⟩).params.map
          PlugDataParameter.mode = [g]) ∧
    (loadStateInformation (plainText ℚ) ratFns (fun _ => Mode.Integer) legacyNoModeXml
        ⟨1, [PlugDataParameter.new ratFns "param1" 0 true 1 0 1]⟩).params.map
          (fun p => (p.mode, p.range.start, p.range.end_)) = [(Mode.Integer, 0, 1)] ∧
    (loadStateInformation (plainText ℚ) ratFns (fun _ => Mode.Float) legacyNoModeXml
        ⟨1, [PlugDataParameter.new ratFns "param1" 0 true 1 0 1]⟩).params.map
          (fun p => (p.mode, p.range.start, p.range.end_)) = [(Mode.Float, 1 / 2, 3 / 2)] := by
  refine ⟨rfl, ?_, by with_unfolding_all decide, by with_unfolding_all decide⟩
  intro g
  have hfind : legacyNoModeXml.getChildByAttribute (plainText ℚ) "id" ("param" ++ toString 1)
      = some (XmlElement.mk "PARAM"
          [("id", XmlValue.text "param1"), ("min", XmlValue.number (1 / 2)),
           ("max", XmlValue.number (3 / 2))] []) := by
    with_unfolding_all rfl
  simp only [loadStateInformation, loadLoop, hfind, List.map_cons, List.map_nil]
  rw [loadParam_mode_of_missing _ _ _ _ _ _ (by decide)]

/-! ### C6 -/

theorem addLoop_eq (cond : File → Bool) : ∀ (files : List File) (i idx : Nat)
    (item : DocumentBrowserItem),
    addLoop cond i files (idx, item)
      = (idx + (matching cond i files).length,
         { item with subItems := item.subItems ++ mkItems idx (matching cond i files) }) := by
  intro files
  induction files with
  | nil => intro i idx item; simp [addLoop, matching, mkItems]
  | cons f rest ih =>
    intro i idx item
    by_cases h : cond f = true
    · simp [addLoop, matching, mkItems, h, ih, DocumentBrowserItem.addSubItem]
      omega
    · simp [addLoop, matching, h, ih]

theorem mem_matching (cond : File → Bool) : ∀ (files : List File) (i j : Nat) (f : File),
    (j, f) ∈ matching cond i files ↔ i ≤ j ∧ files[j - i]? = some f ∧ cond f = true := by
  intro files
  induction files with
  | nil => intro i j f; simp [matching]
  | cons g rest ih =>
    intro i j f
    have hstep : ∀ (hlt : i < j), (g :: rest)[j - i]? = rest[j - (i + 1)]? := by
      intro hlt
      rw [show j - i = (j - (i + 1)) + 1 by omega, List.getElem?_cons_succ]
    by_cases h : cond g = true
    · simp only [matching, h, if_true, List.mem_cons, Prod.mk.injEq, ih]
      constructor
      · rintro (⟨rfl, rfl⟩ | ⟨h1, h2, h3⟩)
        · simp [h]
        · exact ⟨by omega, by rw [hstep (by omega)]; exact h2, h3⟩
      · rintro ⟨h1, h2, h3⟩
        rcases Nat.eq_or_lt_of_le h1 with rfl | hlt
        · left
          simp at h2
          exact ⟨rfl, h2.symm⟩
        · right
          exact ⟨by omega, by rw [← hstep hlt]; exact h2, h3⟩
    · simp only [matching, h, if_false, ih, Bool.false_eq_true]
      constructor
      · rintro ⟨h1, h2, h3⟩
        exact ⟨by omega, by rw [hstep (by omega)]; exact h2, h3⟩
      · rintro ⟨h1, h2, h3⟩
        rcases Nat.eq_or_lt_of_le h1 with rfl | hlt
        · simp at h2
          subst h2
          exact absurd h3 h
        · exact ⟨by omega, by rw [← hstep hlt]; exact h2, h3⟩

theorem pairwise_matching (cond : File → Bool) : ∀ (files : List File) (i : Nat),
    List.Pairwise (fun x y : Nat × File => x.1 < y.1) (matching cond i files) := by
  intro files
  induction files with
  | nil => intro i; simp [matching]
  | cons g rest ih =>
    intro i
    by_cases h : cond g = true
    · simp only [matching, h, if_true, List.pairwise_cons]
      refine ⟨?_, ih (i + 1)⟩
      rintro ⟨j, f⟩ hm
      have := (mem_matching cond rest (i + 1) j f).1 hm
      exact Nat.lt_of_succ_le this.1
    · simp only [matching, h, if_false, Bool.false_eq_true]
      exact ih (i + 1)

theorem mem_mkItems : ∀ (M : List (Nat × File)) (idx : Nat) (s : SubItem),
    s ∈ mkItems idx M → (s.indexInContents, s.file) ∈ M := by
  intro M
  induction M with
  | nil => intro idx s h; simp [mkItems] at h
  | cons x rest ih =>
    intro idx s h
    obtain ⟨i, f⟩ := x
    simp only [mkItems, List.mem_cons] at h
    rcases h with rfl | h
    · simp
    · exact List.mem_cons_of_mem _ (ih _ _ h)

theorem mkItems_of_mem : ∀ (M : List (Nat × File)) (idx : Nat) (x : Nat × File),
    x ∈ M → ∃ s ∈ mkItems idx M, s.indexInContents = x.1 ∧ s.file = x.2 := by
  intro M
  induction M with
  | nil => intro idx x h; simp at h
  | cons y rest ih =>
    intro idx x h
    obtain ⟨i, f⟩ := y
    simp only [List.mem_cons] at h
    rcases h with rfl | h
    · exact ⟨⟨i, idx, f⟩, by simp [mkItems], rfl, rfl⟩
    · obtain ⟨s, hs, h1, h2⟩ := ih (idx + 1) x h
      exact ⟨s, by simp [mkItems, hs], h1, h2⟩

theorem map_index_mkItems : ∀ (M : List (Nat × File)) (idx : Nat),
    (mkItems idx M).map SubItem.indexInContents = M.map Prod.fst := by
  intro M
  induction M with
  | nil => intro idx; rfl
  | cons x rest ih => intro idx; obtain ⟨i, f⟩ := x; simp [mkItems, ih]

theorem length_mkItems : ∀ (M : List (Nat × File)) (idx : Nat),
    (mkItems idx M).length = M.length := by
  intro M
  induction M with
  | nil => intro idx; rfl
  | cons x rest ih => intro idx; obtain ⟨i, f⟩ := x; simp [mkItems, ih]

theorem indexInParent_mkItems : ∀ (M : List (Nat × File)) (idx a : Nat) (s : SubItem),
    (mkItems idx M)[a]? = some s → s.indexInParent = idx + a := by
  intro M
  induction M with
  | nil => intro idx a s h; simp [mkItems] at h
  | cons x rest ih =>
    intro idx a s h
    obtain ⟨i, f⟩ := x
    cases a with
    | zero => simp [mkItems] at h; subst h; rfl
    | succ a =>
      simp only [mkItems, List.getElem?_cons_succ] at h
      have := ih (idx + 1) a s h
      omega

theorem pairwise_mkItems (R : SubItem → SubItem → Prop) :
    ∀ (M : List (Nat × File)) (idx : Nat),
    List.Pairwise (fun x y : Nat × File => x.1 < y.1) M →
    (∀ a b : SubItem, (a.indexInContents, a.file) ∈ M → (b.indexInContents, b.file) ∈ M →
      a.indexInContents < b.indexInContents → R a b) →
    List.Pairwise R (mkItems idx M) := by
  intro M
  induction M with
  | nil => intro idx _ _; simp [mkItems]
  | cons x rest ih =>
    intro idx hp hR
    obtain ⟨i, f⟩ := x
    rw [List.pairwise_cons] at hp
    simp only [mkItems, List.pairwise_cons]
    refine ⟨?_, ih (idx + 1) hp.2 ?_⟩
    · intro b hb
      have hb' := mem_mkItems rest (idx + 1) b hb
      exact hR ⟨i, idx, f⟩ b (by simp) (List.mem_cons_of_mem _ hb') (hp.1 _ hb')
    · intro a b ha hb hlt
      exact hR a b (List.mem_cons_of_mem _ ha) (List.mem_cons_of_mem _ hb) hlt

theorem rebuild_subItems (item : DocumentBrowserItem) (files : List File)
    (ho : item.isOpen = true) (hl : item.subContentsList = some files) :
    item.rebuildItemsFromContentList.subItems
      = mkItems 0 (matching isShownDirectory 0 files)
        ++ mkItems (matching isShownDirectory 0 files).length (matching isShownFile 0 files) := by
  simp [DocumentBrowserItem.rebuildItemsFromContentList, DocumentBrowserItem.clearSubItems, ho,
    hl, addLoop_eq]

theorem shown_exclusive (f : File) (h1 : isShownDirectory f = true) (h2 : isShownFile f = true) :
    False := by
  simp [isShownDirectory, isShownFile, File.existsAsFile] at h1 h2
  simp [h1.1] at h2

theorem isDirectory_of_shown (f : File) (h : isShownDirectory f = true) :
    f.isDirectory = true ∧ startsWithChar f.getFileName '.' = false := by
  simpa [isShownDirectory] using h

theorem existsAsFile_of_shown (f : File) (h : isShownFile f = true) :
    f.existsAsFile = true ∧ f.isDirectory = false ∧ startsWithChar f.getFileName '.' = false := by
  simp only [isShownFile, File.existsAsFile, Bool.and_eq_true, Bool.not_eq_true'] at h
  simp [File.existsAsFile, h.1.1, h.1.2, h.2]

theorem mem_rebuild (files : List File) (s : SubItem)
    (hs : s ∈ mkItems 0 (matching isShownDirectory 0 files)
        ++ mkItems (matching isShownDirectory 0 files).length (matching isShownFile 0 files)) :
    files[s.indexInContents]? = some s.file ∧
    ((isShownDirectory s.file = true ∧
        s ∈ mkItems 0 (matching isShownDirectory 0 files)) ∨
      (isShownFile s.file = true ∧
        s ∈ mkItems (matching isShownDirectory 0 files).length (matching isShownFile 0 files))) := by
  rcases List.mem_append.1 hs with h | h
  · have := (mem_matching _ _ _ _ _).1 (mem_mkItems _ _ _ h)
    exact ⟨by simpa using this.2.1, Or.inl ⟨this.2.2, h⟩⟩
  · have := (mem_matching _ _ _ _ _).1 (mem_mkItems _ _ _ h)
    exact ⟨by simpa using this.2.1, Or.inr ⟨this.2.2, h⟩⟩

/-- C6: `rebuildItemsFromContentList` leaves no sub-items when the item is
closed or has no contents list. On an open item with a contents list every
sub-item is an entry of the list; an entry has a sub-item exactly when it is a
directory or an existing file and its name does not start with `.`; no entry
has two sub-items; of any two sub-items the earlier one is a directory and the
later a regular file, or both are of one kind and in the order of the contents
list; and each sub-item carries its position as `indexInParent`. -/
theorem rebuild_folders_first (item : DocumentBrowserItem) :
    ((item.isOpen = false ∨ item.subContentsList = none) →
      item.rebuildItemsFromContentList.subItems = []) ∧
    (∀ files : List File, item.isOpen = true → item.subContentsList = some files →
      (∀ s ∈ item.rebuildItemsFromContentList.subItems,
        files[s.indexInContents]? = some s.file) ∧
      (∀ (i : Nat) (f : File), files[i]? = some f →
        ((∃ s ∈ item.rebuildItemsFromContentList.subItems, s.indexInContents = i) ↔
          (f.isDirectory = true ∨ f.existsAsFile = true) ∧
            startsWithChar f.getFileName '.' = false)) ∧
      (item.rebuildItemsFromContentList.subItems.map SubItem.indexInContents).Nodup ∧
      item.rebuildItemsFromContentList.subItems.Pairwise FoldersFirst ∧
      (∀ (a : Nat) (s : SubItem), item.rebuildItemsFromContentList.subItems[a]? = some s →
        s.indexInParent = a)) ∧
    item.rebuildItemsFromContentList.isOpen = item.isOpen ∧
    item.rebuildItemsFromContentList.subContentsList = item.subContentsList := by
  refine ⟨?_, ?_, ?_, ?_⟩
  · rintro (h | h)
    · simp [DocumentBrowserItem.rebuildItemsFromContentList,
        DocumentBrowserItem.clearSubItems, h]
    · simp only [DocumentBrowserItem.rebuildItemsFromContentList,
        DocumentBrowserItem.clearSubItems, h]
      cases item.isOpen <;> rfl
  · intro files ho hl
    rw [rebuild_subItems item files ho hl]
    have hpair : List.Pairwise FoldersFirst
        (mkItems 0 (matching isShownDirectory 0 files)
          ++ mkItems (matching isShownDirectory 0 files).length
              (matching isShownFile 0 files)) := by
      rw [List.pairwise_append]
      refine ⟨?_, ?_, ?_⟩
      · apply pairwise_mkItems _ _ _ (pairwise_matching _ _ _)
        intro a b ha hb hlt
        have h1 := isDirectory_of_shown _ ((mem_matching _ _ _ _ _).1 ha).2.2
        have h2 := isDirectory_of_shown _ ((mem_matching _ _ _ _ _).1 hb).2.2
        exact Or.inr ⟨by rw [h1.1, h2.1], hlt⟩
      · apply pairwise_mkItems _ _ _ (pairwise_matching _ _ _)
        intro a b ha hb hlt
        have h1 := existsAsFile_of_shown _ ((mem_matching _ _ _ _ _).1 ha).2.2
        have h2 := existsAsFile_of_shown _ ((mem_matching _ _ _ _ _).1 hb).2.2
        exact Or.inr ⟨by rw [h1.2.1, h2.2.1], hlt⟩
      · intro a ha b hb
        have h1 := isDirectory_of_shown _ ((mem_matching _ _ _ _ _).1 (mem_mkItems _ _ _ ha)).2.2
        have h2 := existsAsFile_of_shown _ ((mem_matching _ _ _ _ _).1 (mem_mkItems _ _ _ hb)).2.2
        exact Or.inl ⟨h1.1, h2.1⟩
    refine ⟨?_, ?_, ?_, hpair, ?_⟩
    · intro s hs
      exact (mem_rebuild files s hs).1
    · intro i f hf
      constructor
      · rintro ⟨s, hs, rfl⟩
        obtain ⟨hfile, hkind⟩ := mem_rebuild files s hs
        rw [hf] at hfile
        simp only [Option.some.injEq] at hfile
        subst hfile
        rcases hkind with ⟨h, _⟩ | ⟨h, _⟩
        · exact ⟨Or.inl (isDirectory_of_shown _ h).1, (isDirectory_of_shown _ h).2⟩
        · exact ⟨Or.inr (existsAsFile_of_shown _ h).1, (existsAsFile_of_shown _ h).2.2⟩
      · rintro ⟨hk, hdot⟩
        rcases hk with hk | hk
        · have hm : (i, f) ∈ matching isShownDirectory 0 files :=
            (mem_matching _ _ _ _ _).2 ⟨Nat.zero_le _, by simpa using hf,
              by simp [isShownDirectory, hk, hdot]⟩
          obtain ⟨s, hs, h1, _⟩ := mkItems_of_mem _ 0 _ hm
          exact ⟨s, List.mem_append_left _ hs, h1⟩
        · have hm : (i, f) ∈ matching isShownFile 0 files :=
            (mem_matching _ _ _ _ _).2 ⟨Nat.zero_le _, by simpa using hf,
              by simp [isShownFile, hk, hdot]⟩
          obtain ⟨s, hs, h1, _⟩ := mkItems_of_mem _ (matching isShownDirectory 0 files).length _ hm
          exact ⟨s, List.mem_append_right _ hs, h1⟩
    · rw [List.Nodup, List.pairwise_map]
      refine List.Pairwise.imp_of_mem ?_ hpair
      intro a b ha hb hab heq
      rcases hab with ⟨h1, h2⟩ | ⟨_, hlt⟩
      · have fa := (mem_rebuild files a ha).1
        have fb := (mem_rebuild files b hb).1
        rw [heq, fb] at fa
        simp only [Option.some.injEq] at fa
        rw [fa] at h2
        simp [File.existsAsFile, h1] at h2
      · omega
    · intro a s hs
      rw [List.getElem?_append] at hs
      split_ifs at hs with hlt
      · simpa using indexInParent_mkItems _ 0 a s hs
      · have := indexInParent_mkItems _ _ _ s hs
        rw [length_mkItems] at this hlt
        omega
  · simp only [DocumentBrowserItem.rebuildItemsFromContentList,
      DocumentBrowserItem.clearSubItems]
    split
    · simp [addLoop_eq]
    · rfl
  · simp only [DocumentBrowserItem.rebuildItemsFromContentList,
      DocumentBrowserItem.clearSubItems]
    split
    · simp [addLoop_eq]
    · rfl

/-- C6 (evaluation): on `sampleContents` the sub-items are the two visible
directories, then the two existing files, in the order of the list. -/
theorem rebuild_sampleContents :
    (DocumentBrowserItem.rebuildItemsFromContentList
        ⟨true, some sampleContents, [⟨7, 7, ⟨"stale", true, false⟩⟩]⟩).subItems.map
          (fun s => (s.indexInContents, s.indexInParent, s.file.fileName))
      = [(2, 0, "abstractions"), (5, 1, "Extra"), (0, 2, "b.pd"), (4, 3, "a.pd")] := by
  decide

/-! ### C7 -/

theorem releaseStep_type (juce : Juce) (alive kd : Bool) (icd : KeyPress → Bool)
    (o : KeyObject) (n : Nat) : (releaseStep juce alive kd icd o n).type = o.type := by
  simp only [releaseStep]
  split_ifs <;> rfl

theorem getD_concat_middle (pre suf : List KeyPress) (k : KeyPress) :
    (pre ++ [k] ++ suf).getD pre.length default = k := by
  induction pre with
  | nil => simp
  | cons a pre ih => simpa using ih

theorem eraseIdx_concat_middle {α : Type} (pre suf : List α) (k : α) :
    (pre ++ [k] ++ suf).eraseIdx pre.length = pre ++ suf := by
  induction pre with
  | nil => simp
  | cons a pre ih => simpa using ih

theorem releaseStep_released (juce : Juce) (alive : Bool) (icd : KeyPress → Bool)
    (o : KeyObject) (n : Nat) (hr : foundReleased icd (o.heldKeys.getD n default) = true) :
    releaseStep juce alive false icd o n
      = { o with
          sent := o.sent ++
            (if alive then releaseMessage juce o.type (o.heldKeys.getD n default) else []),
          keyPressTimes := o.keyPressTimes.eraseIdx n,
          heldKeys := o.heldKeys.eraseIdx n } := by
  have hdown : (if (o.heldKeys.getD n default).getKeyCode < 0 then false
      else icd (o.heldKeys.getD n default)) = false := by
    simp only [foundReleased] at hr
    split_ifs at hr ⊢ with hneg
    · rfl
    · simpa using hr
  simp only [releaseStep, hdown]
  cases alive <;> cases ht : o.type <;> simp [releaseMessage, ht]

theorem releaseStep_kept (juce : Juce) (alive : Bool) (icd : KeyPress → Bool)
    (o : KeyObject) (n : Nat) (hr : foundReleased icd (o.heldKeys.getD n default) = false) :
    releaseStep juce alive false icd o n = o := by
  have hdown : (if (o.heldKeys.getD n default).getKeyCode < 0 then false
      else icd (o.heldKeys.getD n default)) = true := by
    simp only [foundReleased] at hr
    split_ifs at hr ⊢ with hneg
    · simpa using hr
  simp only [releaseStep, hdown]
  rfl

theorem releaseLoop_spec (juce : Juce) (alive : Bool) (icd : KeyPress → Bool) :
    ∀ (n : Nat) (o : KeyObject) (pre suf : List KeyPress), o.heldKeys = pre ++ suf →
    pre.length = n →
    (releaseLoop juce alive false icd n o).heldKeys
        = pre.filter (fun k => !foundReleased icd k) ++ suf ∧
    (releaseLoop juce alive false icd n o).sent
        = o.sent ++ (if alive then
            ((pre.reverse.filter (foundReleased icd)).map (releaseMessage juce o.type)).flatten
          else []) ∧
    (releaseLoop juce alive false icd n o).type = o.type := by
  intro n
  induction n with
  | zero =>
    intro o pre suf h hl
    have : pre = [] := List.length_eq_zero.mp hl
    subst this
    simp [releaseLoop, h]
  | succ n ih =>
    intro o pre suf h hl
    rcases List.eq_nil_or_concat pre with rfl | ⟨pre', k, rfl⟩
    · simp at hl
    · rw [List.concat_eq_append] at h hl ⊢
      have hn : pre'.length = n := by simpa using hl
      have hk : o.heldKeys.getD n default = k := by
        rw [h, ← hn]; exact getD_concat_middle pre' suf k
      have he : o.heldKeys.eraseIdx n = pre' ++ suf := by
        rw [h, ← hn]; exact eraseIdx_concat_middle pre' suf k
      simp only [releaseLoop]
      by_cases hr : foundReleased icd k = true
      · rw [releaseStep_released juce alive icd o n (by rw [hk]; exact hr), hk]
        obtain ⟨h1, h2, h3⟩ := ih
          { o with
            sent := o.sent ++ (if alive then releaseMessage juce o.type k else []),
            keyPressTimes := o.keyPressTimes.eraseIdx n,
            heldKeys := o.heldKeys.eraseIdx n } pre' suf he hn
        rw [h1, h2, h3]
        refine ⟨by simp [List.filter_append, hr], ?_, rfl⟩
        cases alive <;> simp [List.filter_cons, hr]
      · have hr' : foundReleased icd k = false := by simpa using hr
        rw [releaseStep_kept juce alive icd o n (by rw [hk]; exact hr')]
        obtain ⟨h1, h2, h3⟩ := ih o pre' (k :: suf) (by simpa using h) hn
        rw [h1, h2, h3]
        refine ⟨by simp [List.filter_append, hr'], ?_, rfl⟩
        simp [List.filter_cons, hr']

theorem keyPressed_suppressed (juce : Juce) (sync alive : Bool) (currentTime addTime : Nat)
    (o : KeyObject) (key : KeyPress) (h : suppressed juce sync currentTime o key = true) :
    o.keyPressed juce sync alive currentTime addTime key = (false, o) := by
  cases sync with
  | true => simp [KeyObject.keyPressed]
  | false =>
    simp only [suppressed, Bool.false_or, Bool.and_eq_true, decide_eq_true_eq] at h
    have h2 : ¬ (15 < uint32Sub currentTime
        (o.keyPressTimes.getD (indexOf juce.keyPressEq o.heldKeys key).toNat 0)) :=
      Nat.not_lt.mpr h.2
    simp [KeyObject.keyPressed, h.1, h2, -List.getD_eq_getElem?_getD]

theorem keyPressed_sent (juce : Juce) (sync alive : Bool) (currentTime addTime : Nat)
    (o : KeyObject) (key : KeyPress) (h : suppressed juce sync currentTime o key = false) :
    (o.keyPressed juce sync alive currentTime addTime key).2.sent
      = o.sent ++ (if alive then pressMessage juce o.type key else []) := by
  cases sync with
  | true => simp [suppressed] at h
  | false =>
    simp only [suppressed, Bool.false_or, Bool.and_eq_false_iff, decide_eq_false_iff_not] at h
    by_cases hd : 0 ≤ indexOf juce.keyPressEq o.heldKeys key
    · have h2 : 15 < uint32Sub currentTime
          (o.keyPressTimes.getD (indexOf juce.keyPressEq o.heldKeys key).toNat 0) := by
        rcases h with h | h
        · exact absurd hd h
        · exact Nat.lt_of_not_le h
      cases alive <;> cases ht : o.type <;>
        simp [KeyObject.keyPressed, hd, h2, ht, pressMessage, -List.getD_eq_getElem?_getD]
    · cases alive <;> cases ht : o.type <;>
        simp [KeyObject.keyPressed, hd, ht, pressMessage]

theorem keyStateChanged_spec (juce : Juce) (alive : Bool) (icd : KeyPress → Bool)
    (o : KeyObject) :
    (o.keyStateChanged juce false alive icd false).2.heldKeys
        = o.heldKeys.filter (fun k => !foundReleased icd k) ∧
    (o.keyStateChanged juce false alive icd false).2.sent
        = o.sent ++ (if alive then
            ((o.heldKeys.reverse.filter (foundReleased icd)).map
              (releaseMessage juce o.type)).flatten
          else []) := by
  have := releaseLoop_spec juce alive icd o.heldKeys.length o o.heldKeys [] (by simp) rfl
  rw [List.append_nil] at this
  simp only [KeyObject.keyStateChanged, Bool.false_eq_true, if_false, Bool.not_false, if_true]
  exact ⟨this.1, this.2.1⟩

/-- C7 (counterexample): a `Key` object whose Pd object is gone
(`ptr.get<t_pd>()` is null) gets a first press of a key outside any global
sync, so the call is not suppressed, and sends nothing. -/
theorem keyPressed_without_object_sends_nothing :
    suppressed sampleJuce false 100 ⟨[], [], KeyObjectType.Key, []⟩ ⟨65, 0, 'A'⟩ = false ∧
    (KeyObject.keyPressed sampleJuce false false 100 100 ⟨[], [], KeyObjectType.Key, []⟩
      ⟨65, 0, 'A'⟩).2.sent = [] ∧
    (KeyObject.keyPressed sampleJuce false true 100 100 ⟨[], [], KeyObjectType.Key, []⟩
      ⟨65, 0, 'A'⟩).2.sent = [[Atom.float 65]] := by
  decide

/-- C7 (amended): the messages of a `KeyObject`, where every send happens only
while `ptr.get<t_pd>()` still yields the wrapped object (`alive`). A
suppressed `keyPressed` changes nothing. For type `Key` a `keyPressed` that is
not suppressed sends one float, the key number `parseKey` produces, and
`keyStateChanged` sends nothing. For type `KeyUp` `keyPressed` sends nothing
and `keyStateChanged(false)` outside a global sync sends, for each held key it
finds released (last held first), one float with its parsed key number. For
type `KeyName` a press that is not suppressed sends `{1, key symbol}` and each
release `{0, key symbol}`. Without the object nothing is sent. -/
theorem keyObject_messages (juce : Juce) (sync alive : Bool) (currentTime addTime : Nat)
    (icd : KeyPress → Bool) (o : KeyObject) (key : KeyPress) :
    (suppressed juce sync currentTime o key = true →
      (o.keyPressed juce sync alive currentTime addTime key).2 = o) ∧
    (o.type = KeyObjectType.Key →
      (suppressed juce sync currentTime o key = false →
        (o.keyPressed juce sync alive currentTime addTime key).2.sent
          = o.sent ++
            (if alive then [[Atom.float (parseKey juce key.getKeyCode "").1]] else [])) ∧
      ∀ isKeyDown : Bool, (o.keyStateChanged juce sync alive icd isKeyDown).2.sent = o.sent) ∧
    (o.type = KeyObjectType.KeyUp →
      (o.keyPressed juce sync alive currentTime addTime key).2.sent = o.sent ∧
      (sync = false →
        (o.keyStateChanged juce sync alive icd false).2.sent
          = o.sent ++
            (if alive then
              (o.heldKeys.reverse.filter (foundReleased icd)).map
                (fun k => [Atom.float (parseKey juce k.getKeyCode "").1])
            else []))) ∧
    (o.type = KeyObjectType.KeyName →
      (suppressed juce sync currentTime o key = false →
        (o.keyPressed juce sync alive currentTime addTime key).2.sent
          = o.sent ++
            (if alive then
              [[Atom.float 1,
                Atom.symbol (parseKey juce key.getKeyCode (keyString juce key)).2]]
            else [])) ∧
      (sync = false →
        (o.keyStateChanged juce sync alive icd false).2.sent
          = o.sent ++
            (if alive then
              (o.heldKeys.reverse.filter (foundReleased icd)).map
                (fun k => [Atom.float 0,
                  Atom.symbol (parseKey juce k.getKeyCode (keyString juce k)).2])
            else []))) ∧
    (sync = false →
      (o.keyStateChanged juce sync alive icd false).2.heldKeys
        = o.heldKeys.filter (fun k => !foundReleased icd k)) ∧
    (sync = true → ∀ isKeyDown : Bool, (o.keyStateChanged juce sync alive icd isKeyDown).2 = o) ∧
    (o.keyStateChanged juce sync alive icd true).2 = o := by
  have hflat : ∀ (f : KeyPress → List Atom) (l : List KeyPress),
      (l.map (fun k => [f k])).flatten = l.map f := by
    intro f l
    induction l with
    | nil => rfl
    | cons a l ih => simp [ih]
  have hnil : ∀ (l : List KeyPress),
      (l.map (fun _ => ([] : List (List Atom)))).flatten = [] := by
    intro l
    induction l with
    | nil => rfl
    | cons a l ih => simp [ih]
  have hdown : (o.keyStateChanged juce sync alive icd true).2 = o := by
    cases sync <;> simp [KeyObject.keyStateChanged]
  have hsync : sync = true →
      ∀ isKeyDown : Bool, (o.keyStateChanged juce sync alive icd isKeyDown).2 = o := by
    rintro rfl isKeyDown
    simp [KeyObject.keyStateChanged]
  refine ⟨?_, ?_, ?_, ?_, ?_, hsync, hdown⟩
  · intro h
    rw [keyPressed_suppressed juce sync alive currentTime addTime o key h]
  · intro ht
    refine ⟨?_, ?_⟩
    · intro h
      rw [keyPressed_sent juce sync alive currentTime addTime o key h, ht]
      rfl
    · intro isKeyDown
      cases sync with
      | true => rw [hsync rfl]
      | false =>
        cases isKeyDown with
        | true => rw [hdown]
        | false =>
          rw [(keyStateChanged_spec juce alive icd o).2, ht]
          have : releaseMessage juce KeyObjectType.Key = fun _ => [] := rfl
          rw [this, hnil]
          simp
  · intro ht
    refine ⟨?_, ?_⟩
    · by_cases h : suppressed juce sync currentTime o key = true
      · rw [keyPressed_suppressed juce sync alive currentTime addTime o key h]
      · rw [keyPressed_sent juce sync alive currentTime addTime o key (by simpa using h), ht]
        simp [pressMessage]
    · rintro rfl
      rw [(keyStateChanged_spec juce alive icd o).2, ht]
      have : releaseMessage juce KeyObjectType.KeyUp
          = fun k => [[Atom.float (parseKey juce k.getKeyCode "").1]] := rfl
      rw [this, hflat]
  · intro ht
    refine ⟨?_, ?_⟩
    · intro h
      rw [keyPressed_sent juce sync alive currentTime addTime o key h, ht]
      rfl
    · rintro rfl
      rw [(keyStateChanged_spec juce alive icd o).2, ht]
      have : releaseMessage juce KeyObjectType.KeyName
          = fun k => [[Atom.float 0,
              Atom.symbol (parseKey juce k.getKeyCode (keyString juce k)).2]] := rfl
      rw [this, hflat]
  · rintro rfl
    exact (keyStateChanged_spec juce alive icd o).1

/-- C7 (evaluation): a `KeyName` object with `A` and shift held, when both are
found released: two messages, the last held key first, and no key stays held. -/
theorem keyStateChanged_sample :
    (KeyObject.keyStateChanged sampleJuce false true (fun _ => false)
        ⟨[⟨65, 0, 'A'⟩, KeyPress.ofCode shiftKey], [1, 2], KeyObjectType.KeyName, []⟩ false).2
      = ⟨[], [], KeyObjectType.KeyName,
          [[Atom.float 0, Atom.symbol "Shift_L"], [Atom.float 0, Atom.symbol "a"]]⟩ := by
  decide

/-! ### C8 -/

/-- C8 (the code at the failing input): with unsaved changes `openProject`
launches the open chooser without saving when the dialog reports Save (2) and
saves first when it reports Don't Save (1), while the New button saves on 2
and does not save on 1; Cancel (0) does nothing in both. -/
theorem openProject_swaps_save_codes :
    SaveDialogButton.save.onClick = 2 ∧ SaveDialogButton.dontsave.onClick = 1 ∧
    SaveDialogButton.cancel.onClick = 0 ∧
    openProject true SaveDialogButton.save.onClick = [EditorAction.launchOpenChooser] ∧
    openProject true SaveDialogButton.dontsave.onClick
      = [EditorAction.saveProject, EditorAction.launchOpenChooser] ∧
    openProject true SaveDialogButton.cancel.onClick = [] ∧
    newButtonOnClick true SaveDialogButton.save.onClick
      = [EditorAction.saveProject, EditorAction.createFunc] ∧
    newButtonOnClick true SaveDialogButton.dontsave.onClick = [EditorAction.createFunc] ∧
    newButtonOnClick true SaveDialogButton.cancel.onClick = [] := by
  decide

/-! ### C9 -/

/-- C9: `performExport` starts the build step exactly when `shouldQuit` was
false at both checks, the generator's exit code was 0 and the export type is
2. When `shouldQuit` is set at the first check it returns true and has started
nothing, at the second check it returns true and has started only the
generator. Otherwise, when the build is not run the result is true exactly
when the generator's exit code was non-zero, and when the build is run the
result is true exactly when the build's exit code was non-zero. -/
theorem performExport_build_when_needed (run : ExportRun)
    (pdPatch outdir name copyright : String) (searchPaths : List String) :
    ((performExport run pdPatch outdir name copyright searchPaths).buildStarted = true ↔
      run.shouldQuitFirst = false ∧ run.shouldQuitSecond = false ∧
        run.generatorExitCode = 0 ∧ run.exportTypeValue = 2) ∧
    (run.shouldQuitFirst = true →
      (performExport run pdPatch outdir name copyright searchPaths).result = true ∧
      (performExport run pdPatch outdir name copyright searchPaths).started = []) ∧
    (run.shouldQuitFirst = false → run.shouldQuitSecond = true →
      (performExport run pdPatch outdir name copyright searchPaths).result = true ∧
      (performExport run pdPatch outdir name copyright searchPaths).started
        = [Started.process (joinIntoString
            (exportArgs run.heavyExecutable pdPatch outdir name copyright searchPaths))]) ∧
    (run.shouldQuitFirst = false → run.shouldQuitSecond = false →
      (performExport run pdPatch outdir name copyright searchPaths).buildStarted = false →
      ((performExport run pdPatch outdir name copyright searchPaths).result = true ↔
        run.generatorExitCode ≠ 0) ∧
      (performExport run pdPatch outdir name copyright searchPaths).started
        = [Started.process (joinIntoString
            (exportArgs run.heavyExecutable pdPatch outdir name copyright searchPaths))]) ∧
    ((performExport run pdPatch outdir name copyright searchPaths).buildStarted = true →
      ((performExport run pdPatch outdir name copyright searchPaths).result = true ↔
        run.buildExitCode ≠ 0) ∧
      (performExport run pdPatch outdir name copyright searchPaths).started
        = [Started.process (joinIntoString
            (exportArgs run.heavyExecutable pdPatch outdir name copyright searchPaths)),
           Started.shellScript run.buildScript]) := by
  obtain ⟨hv, bs, et, cp, q1, q2, ge, be⟩ := run
  by_cases hge : ge = 0 <;> by_cases het : et = 2 <;> cases q1 <;> cases q2 <;>
    simp [performExport, ExportOutcome.buildStarted, hge, het]

/-- C9 (evaluation): `sampleRun` starts the generator and then the build and
returns true because the build failed. -/
theorem performExport_sampleRun :
    performExport sampleRun "patch.pd" "out" "my-synth" "" ["lib"]
      = ⟨true, [Started.process "Heavy patch.pd -oout -nmy_synth -v -gpdext -p lib",
                Started.shellScript "make -j4"], false⟩ := by
  decide

/-! ### C10 -/

/-- C10 (the code at the failing inputs): a click at `x = 25`, `y = 25` on
`sampleGraph` sets `vec[1]` to 1/2 and writes nothing to the Pd array; the
drag that follows to `x = 75`, `y = 75` sets `vec[1]`, `vec[2]`, `vec[3]` and
writes only the indices 1 and 2, not the index 3 under the mouse. -/
theorem mouseDrag_leaves_last_index_unwritten :
    (sampleGraph.mouseDown ⟨25, 25⟩).lastIndex = 1 ∧
    (sampleGraph.mouseDown ⟨25, 25⟩).vec = [0, 1 / 2, 0, 0, 0] ∧
    (sampleGraph.mouseDown ⟨25, 25⟩).written = [] ∧
    ((sampleGraph.mouseDown ⟨25, 25⟩).mouseDrag ⟨75, 75⟩).lastIndex = 3 ∧
    ((sampleGraph.mouseDown ⟨25, 25⟩).mouseDrag ⟨75, 75⟩).vec = [0, 1 / 2, 1 / 6, -1 / 6, 0] ∧
    ((sampleGraph.mouseDown ⟨25, 25⟩).mouseDrag ⟨75, 75⟩).written
      = [(1, 1 / 2), (2, 1 / 6)] := by
  with_unfolding_all decide

/-! ### C11 -/

theorem interpLoop_length (a b : Int) (mn mx : ℚ) : ∀ (count : Nat) (n : Int) (vec : List ℚ),
    (interpLoop a b mn mx count n vec).length = vec.length := by
  intro count
  induction count with
  | zero => intro n vec; rfl
  | succ count ih => intro n vec; simp [interpLoop, ih]

theorem interpLoop_getD (a b : Int) (mn mx : ℚ) : ∀ (count : Nat) (n : Int) (vec : List ℚ)
    (i : Nat), 0 ≤ n →
    (interpLoop a b mn mx count n vec).getD i 0
      = if n.toNat ≤ i ∧ i < n.toNat + count ∧ i < vec.length then
          jmap ((i : Int) : ℚ) a (b + 1) mn mx
        else vec.getD i 0 := by
  intro count
  induction count with
  | zero =>
    intro n vec i _
    simp only [interpLoop, Nat.add_zero]
    rw [if_neg (by omega)]
  | succ count ih =>
    intro n vec i hn
    have hn1 : (n + 1).toNat = n.toNat + 1 := by omega
    simp only [interpLoop]
    rw [ih (n + 1) _ i (by omega), hn1, List.length_set]
    by_cases hi : i = n.toNat
    · subst hi
      rw [if_neg (by omega)]
      by_cases hlen : n.toNat < vec.length
      · rw [if_pos ⟨le_rfl, by omega, hlen⟩]
        have hcast : ((n.toNat : Int) : ℚ) = (n : ℚ) := by
          rw [Int.toNat_of_nonneg hn]
        rw [hcast]
        simp [List.getD, List.getElem?_set, hlen]
      · rw [if_neg (by omega)]
        have hge : vec.length ≤ n.toNat := Nat.le_of_not_lt hlen
        simp [List.getD, List.getElem?_set, hlen, List.getElem?_eq_none hge]
    · have hset : (vec.set n.toNat (jmap n a (b + 1) mn mx)).getD i 0 = vec.getD i 0 := by
        simp [List.getD, List.getElem?_set, Ne.symm hi]
      rw [hset]
      by_cases hc : n.toNat + 1 ≤ i ∧ i < n.toNat + 1 + count ∧ i < vec.length
      · rw [if_pos hc, if_pos ⟨by omega, by omega, hc.2.2⟩]
      · rw [if_neg hc, if_neg (by omega)]

/-- What `mouseDrag` leaves in the element under the mouse, for indices inside
the array: the mouse's value `current` when the index is at or below
`lastIndex`, and `start + (current - start) * k / (k + 1)` with
`k = index - lastIndex` when it is above. -/
theorem mouseDrag_value_under_mouse (g : GraphicalArray) (e : MouseEvent)
    (herr : g.error = false) (hi0 : 0 ≤ g.index e) (hi1 : (g.index e).toNat < g.vec.length)
    (hl0 : 0 ≤ g.lastIndex) :
    (g.mouseDrag e).vec.getD (g.index e).toNat 0
      = if g.index e ≤ g.lastIndex then g.current e
        else g.start + (g.current e - g.start) * ((g.index e : ℚ) - (g.lastIndex : ℚ))
              / ((g.index e : ℚ) - (g.lastIndex : ℚ) + 1) := by
  have hvec : (g.mouseDrag e).vec
      = interpLoop (Min.min (g.index e) g.lastIndex) (Max.max (g.index e) g.lastIndex)
          (if g.index e = Min.min (g.index e) g.lastIndex then g.current e else g.start)
          (if g.index e = Min.min (g.index e) g.lastIndex then g.start else g.current e)
          (Max.max (g.index e) g.lastIndex + 1 - Min.min (g.index e) g.lastIndex).toNat
          (Min.min (g.index e) g.lastIndex) g.vec := by
    simp only [GraphicalArray.mouseDrag, herr, Bool.false_eq_true, if_false,
      GraphicalArray.index, GraphicalArray.current, GraphicalArray.start]
  rw [hvec, interpLoop_getD _ _ _ _ _ _ _ _ (le_min hi0 hl0)]
  have hcast : (((g.index e).toNat : Int) : ℚ) = (g.index e : ℚ) := by
    rw [Int.toNat_of_nonneg hi0]
  by_cases hle : g.index e ≤ g.lastIndex
  · have hmin : Min.min (g.index e) g.lastIndex = g.index e := min_eq_left hle
    have hmax : Max.max (g.index e) g.lastIndex = g.lastIndex := max_eq_right hle
    rw [if_pos hle, hmin, hmax, if_pos ⟨le_rfl, by omega, hi1⟩, hcast]
    simp [jmap]
  · have hlt : g.lastIndex < g.index e := lt_of_not_le hle
    have hmin : Min.min (g.index e) g.lastIndex = g.lastIndex := min_eq_right hlt.le
    have hmax : Max.max (g.index e) g.lastIndex = g.index e := max_eq_left hlt.le
    rw [if_neg hle, hmin, hmax, if_pos ⟨by omega, by omega, hi1⟩, hcast]
    have hne : g.index e ≠ g.lastIndex := ne_of_gt hlt
    simp only [hne, if_false, jmap]
    ring_nf

/-- Dragging to an index above `lastIndex` leaves the mouse's value in the
element under the mouse only when the element at `lastIndex` already held that
value. -/
theorem mouseDrag_right_misses_current (g : GraphicalArray) (e : MouseEvent)
    (herr : g.error = false) (hi1 : (g.index e).toNat < g.vec.length)
    (hl0 : 0 ≤ g.lastIndex) (hlt : g.lastIndex < g.index e) (hne : g.start ≠ g.current e) :
    (g.mouseDrag e).vec.getD (g.index e).toNat 0 ≠ g.current e := by
  rw [mouseDrag_value_under_mouse g e herr (by omega) hi1 hl0, if_neg (not_le.mpr hlt)]
  have hk : (0 : ℚ) < (g.index e : ℚ) - (g.lastIndex : ℚ) := by
    have : (g.lastIndex : ℚ) < (g.index e : ℚ) := by exact_mod_cast hlt
    linarith
  intro h
  apply hne
  have hk1 : (g.index e : ℚ) - (g.lastIndex : ℚ) + 1 ≠ 0 := by linarith
  field_simp at h
  linarith

/-- C11 (the code at the failing input): after a click at `x = 25` on
`sampleGraph` (`lastIndex = 1`, `vec[1] = 1/2`) the drag to `x = 75`, `y = 75`
has `index = 3` above `lastIndex` and `current = -1/2`, and leaves
`vec[3] = -1/6`. The click itself (index equal to `lastIndex`) and a drag to the
left, to `x = 0`, `y = 75` (index 0 below `lastIndex`), do leave `current` under
the mouse. -/
theorem mouseDrag_to_the_right_misses_mouse_value :
    (sampleGraph.mouseDown ⟨25, 25⟩).lastIndex = 1 ∧
    (sampleGraph.mouseDown ⟨25, 25⟩).index ⟨75, 75⟩ = 3 ∧
    (sampleGraph.mouseDown ⟨25, 25⟩).current ⟨75, 75⟩ = -1 / 2 ∧
    ((sampleGraph.mouseDown ⟨25, 25⟩).mouseDrag ⟨75, 75⟩).vec.getD 3 0 = -1 / 6 ∧
    (sampleGraph.mouseDown ⟨25, 25⟩).index ⟨0, 75⟩ = 0 ∧
    (sampleGraph.mouseDown ⟨25, 25⟩).current ⟨0, 75⟩ = -1 / 2 ∧
    ((sampleGraph.mouseDown ⟨25, 25⟩).mouseDrag ⟨0, 75⟩).vec.getD 0 0 = -1 / 2 ∧
    ({ sampleGraph with lastIndex := 1 } : GraphicalArray).index ⟨25, 25⟩ = 1 ∧
    ({ sampleGraph with lastIndex := 1 } : GraphicalArray).current ⟨25, 25⟩ = 1 / 2 ∧
    (sampleGraph.mouseDown ⟨25, 25⟩).vec.getD 1 0 = 1 / 2 := by
  with_unfolding_all decide

/-! ### C12 -/

theorem closeStep_length_le (patch : Nat) (main : MainEditor) (n : Nat) :
    (closeStep patch main n).getNumTabs ≤ main.getNumTabs := by
  simp only [closeStep, MainEditor.getNumTabs]
  split
  · split_ifs
    · simp only [List.length_eraseIdx]
      split_ifs <;> omega
    · exact le_rfl
  · exact le_rfl

/-- The loop of `closeOpenedSubpatchers` ends by its own condition within one
iteration per tab: any two amounts of fuel that cover the tabs from `n` on
give the same editor. -/
theorem closeLoop_fuel (patch : Nat) : ∀ (fuel₁ fuel₂ n : Nat) (main : MainEditor),
    main.getNumTabs - n ≤ fuel₁ → main.getNumTabs - n ≤ fuel₂ →
    closeLoop patch fuel₁ n main = closeLoop patch fuel₂ n main := by
  intro fuel₁
  induction fuel₁ with
  | zero =>
    intro fuel₂ n main h1 _
    cases fuel₂ with
    | zero => rfl
    | succ f => simp only [closeLoop]; rw [if_neg (by omega)]
  | succ f ih =>
    intro fuel₂ n main h1 h2
    by_cases hn : n < main.getNumTabs
    · cases fuel₂ with
      | zero => omega
      | succ f₂ =>
        simp only [closeLoop, hn, if_true]
        have := closeStep_length_le patch main n
        exact ih f₂ (n + 1) _ (by omega) (by omega)
    · cases fuel₂ with
      | zero => simp only [closeLoop, hn, if_false]
      | succ f₂ => simp only [closeLoop, hn, if_false]

theorem getD_append_cons (pre rest : List (Option Canvas)) (t : Option Canvas) :
    (pre ++ t :: rest).getD pre.length none = t := by
  induction pre with
  | nil => simp
  | cons a pre ih => simpa using ih

theorem eraseIdx_append_cons (pre rest : List (Option Canvas)) (t : Option Canvas) :
    (pre ++ t :: rest).eraseIdx pre.length = pre ++ rest := by
  induction pre with
  | nil => simp
  | cons a pre ih => simpa using ih

theorem closeStep_tabs (patch : Nat) (main : MainEditor) (pre rest : List (Option Canvas))
    (t : Option Canvas) (h : main.tabs = pre ++ t :: rest) :
    (closeStep patch main pre.length).tabs
      = if showsPatch patch t then pre ++ rest else pre ++ t :: rest := by
  have hget : main.getCanvas pre.length = t := by
    rw [MainEditor.getCanvas, h]; exact getD_append_cons pre rest t
  have herase : main.tabs.eraseIdx pre.length = pre ++ rest := by
    rw [h]; exact eraseIdx_append_cons pre rest t
  simp only [closeStep, hget]
  cases t with
  | none => simp [showsPatch, h]
  | some cnv =>
    by_cases hp : cnv.patch = patch
    · simp [showsPatch, hp, herase]
    · simp [showsPatch, hp, h]

/-- What the loop of `closeOpenedSubpatchers` does to the tabs: with the tabs
`pre` already visited and `suf` still to visit, it leaves `pre` followed by
`keptTabs patch suf`. -/
theorem closeLoop_tabs (patch : Nat) : ∀ (fuel : Nat) (pre suf : List (Option Canvas))
    (main : MainEditor), main.tabs = pre ++ suf → suf.length ≤ fuel →
    (closeLoop patch fuel pre.length main).tabs = pre ++ keptTabs patch suf := by
  intro fuel
  induction fuel with
  | zero =>
    intro pre suf main h hl
    have : suf = [] := List.length_eq_zero.mp (Nat.le_zero.mp hl)
    subst this
    simp [closeLoop, keptTabs, h]
  | succ f ih =>
    intro pre suf main h hl
    cases suf with
    | nil =>
      simp only [closeLoop, MainEditor.getNumTabs, h, List.append_nil, lt_irrefl, if_false,
        keptTabs]
    | cons t rest =>
      have hn : pre.length < main.getNumTabs := by
        simp [MainEditor.getNumTabs, h]
      have hstep := closeStep_tabs patch main pre rest t h
      simp only [closeLoop, hn, if_true]
      by_cases ht : showsPatch patch t = true
      · rw [if_pos ht] at hstep
        cases rest with
        | nil =>
          rw [List.append_nil] at hstep
          have hdone : ¬ (pre.length + 1 < (closeStep patch main pre.length).getNumTabs) := by
            simp [MainEditor.getNumTabs, hstep]
          have : closeLoop patch f (pre.length + 1) (closeStep patch main pre.length)
              = closeStep patch main pre.length := by
            cases f with
            | zero => rfl
            | succ f' => simp only [closeLoop, hdone, if_false]
          rw [this, hstep]
          simp [keptTabs, ht]
        | cons u rest' =>
          have h' : (closeStep patch main pre.length).tabs = (pre ++ [u]) ++ rest' := by
            rw [hstep]; simp
          have := ih (pre ++ [u]) rest' _ h' (by simp at hl; omega)
          rw [List.length_append, List.length_singleton] at this
          rw [this]
          simp [keptTabs, ht]
      · rw [if_neg ht] at hstep
        have h' : (closeStep patch main pre.length).tabs = (pre ++ [t]) ++ rest := by
          rw [hstep]; simp
        have := ih (pre ++ [t]) rest _ h' (by simp at hl; omega)
        rw [List.length_append, List.length_singleton] at this
        rw [this]
        cases rest with
        | nil => simp [keptTabs, ht]
        | cons u rest' => simp [keptTabs, ht]

/-- Every tab that does not show the patch stays open, in its place among
such tabs, whatever the other tabs are. -/
theorem keptTabs_keeps_other_patches (patch : Nat) : ∀ (n : Nat) (tabs : List (Option Canvas)),
    tabs.length ≤ n →
    (keptTabs patch tabs).filter (fun t => !showsPatch patch t)
      = tabs.filter (fun t => !showsPatch patch t) := by
  intro n
  induction n with
  | zero =>
    intro tabs h
    have : tabs = [] := List.length_eq_zero.mp (Nat.le_zero.mp h)
    subst this
    rfl
  | succ n ih =>
    intro tabs h
    match tabs, h with
    | [], _ => rfl
    | [t], _ =>
      by_cases ht : showsPatch patch t = true <;> simp [keptTabs, ht]
    | t :: u :: rest, h =>
      by_cases ht : showsPatch patch t = true
      · simp only [keptTabs, ht, if_true, List.filter_cons, Bool.not_true, Bool.false_eq_true,
          if_false]
        have := ih rest (by simp at h; omega)
        split_ifs <;> simp [this]
      · have := ih (u :: rest) (by simp at h ⊢; omega)
        simp only [keptTabs, ht, if_false, Bool.false_eq_true]
        rw [List.filter_cons, this]
        conv_rhs => rw [List.filter_cons]

/-- C12 (the code at the failing input): in `sampleEditor` the subpatch 7 is
open in the second and the third tab. `closeOpenedSubpatchers` for that
patch closes the second tab and leaves the third open, with its canvas and its
entry in `pd.patches`; the main tab stays open. More fuel for the loop changes
nothing. -/
theorem closeOpenedSubpatchers_skips_next_tab :
    (closeOpenedSubpatchers 7 sampleEditor).tabs = [some ⟨0, 0⟩, some ⟨2, 7⟩] ∧
    (closeOpenedSubpatchers 7 sampleEditor).tabs.any (showsPatch 7) = true ∧
    (closeOpenedSubpatchers 7 sampleEditor).patches = [0, 7] ∧
    (closeOpenedSubpatchers 7 sampleEditor).canvases = [⟨0, 0⟩, ⟨2, 7⟩] ∧
    (closeOpenedSubpatchers 7 sampleEditor).tabBarVisible = true ∧
    closeLoop 7 100 0 sampleEditor = closeLoop 7 sampleEditor.getNumTabs 0 sampleEditor ∧
    (closeOpenedSubpatchers 7
      { sampleEditor with tabs := [some ⟨1, 7⟩, some ⟨0, 0⟩, some ⟨2, 7⟩] }).tabs
      = [some ⟨0, 0⟩] := by
  decide

/-- The tabs `closeOpenedSubpatchers` leaves open, for every editor: of the
tabs open before, those `keptTabs` keeps; so all tabs that do not show the
patch stay open, and a tab showing it stays open when it follows a removed
one. -/
theorem closeOpenedSubpatchers_tabs (patch : Nat) (main : MainEditor) :
    (closeOpenedSubpatchers patch main).tabs = keptTabs patch main.tabs ∧
    (closeOpenedSubpatchers patch main).tabs.filter (fun t => !showsPatch patch t)
      = main.tabs.filter (fun t => !showsPatch patch t) := by
  have h := closeLoop_tabs patch main.getNumTabs [] main.tabs main rfl le_rfl
  have htabs : (closeOpenedSubpatchers patch main).tabs = keptTabs patch main.tabs := by
    simp only [closeOpenedSubpatchers]
    split_ifs <;> simpa using h
  exact ⟨htabs, by rw [htabs]; exact keptTabs_keeps_other_patches patch _ _ le_rfl⟩

/-! ### Instances of the theorems above at concrete inputs -/

/-- C2 (witness): with the bounds in reverse order (`min = 10`, `max = 0`) the
value 3 lies between them and is kept. -/
theorem setValueOriginal_clamps_witness :
    (GUIComponent.setValueOriginal ⟨0, 10, 0, []⟩ 3).getValueOriginal = 3 :=
  (setValueOriginal_clamps ⟨0, 10, 0, []⟩ 3).2.2.1 (by norm_num)

/-- C6 (witness): the sub-items built from `sampleContents` are in
folders-first order. -/
theorem rebuild_folders_first_witness :
    List.Pairwise FoldersFirst
      (DocumentBrowserItem.rebuildItemsFromContentList
        ⟨true, some sampleContents, []⟩).subItems :=
  ((rebuild_folders_first ⟨true, some sampleContents, []⟩).2.1 sampleContents rfl rfl).2.2.2.1

/-- C7 (witness): a live `Key` object gets a first press of `A` and sends the
key number 65. -/
theorem keyObject_messages_witness :
    (KeyObject.keyPressed sampleJuce false true 100 100 ⟨[], [], KeyObjectType.Key, []⟩
      ⟨65, 0, 'A'⟩).2.sent
      = [] ++ (if true = true then [[Atom.float (parseKey sampleJuce 65 "").1]] else []) :=
  ((keyObject_messages sampleJuce false true 100 100 (fun _ => false)
    ⟨[], [], KeyObjectType.Key, []⟩ ⟨65, 0, 'A'⟩).2.1 rfl).1 (by decide)

/-- C9 (witness): `sampleRun` meets the four conditions, so the build step is
started. -/
theorem performExport_build_when_needed_witness :
    (performExport sampleRun "patch.pd" "out" "my-synth" "" ["lib"]).buildStarted = true :=
  (performExport_build_when_needed sampleRun "patch.pd" "out" "my-synth" "" ["lib"]).1.2
    ⟨rfl, rfl, rfl, rfl⟩

end Plugdata
